/-
Verification of the solax inverter client (solax/inverter.py).

The development embeds, at two levels, the code that turns a raw HTTP body
into a normalized `InverterResponse`:

* a text level: the XHybrid comma-repair (two successive applications of
  Python's `str.replace(",,", ",0.0,")`) and a model of `json.loads`
  restricted to the JSON subset these payloads use (strings, numbers,
  arrays, objects; no booleans, null, `NaN`/`Infinity`, or `\uXXXX`
  escapes, none of which occur in inverter payloads);

* a structured level: the voluptuous schemas of the XHybrid and X3
  variants, `Inverter.map_response`, the per-variant `make_request`
  pipelines, `Inverter.get_data`'s exception unification, and `discover`.

Numbers are modelled exactly as rationals (the payload values are decimal
literals, which are exact).  Exceptions are modelled as explicit error
values; the transport is an input (either a connection error or a body).
-/
import Mathlib

set_option maxHeartbeats 2000000
set_option maxRecDepth 4000

/-- JSON values as produced by `json.loads`, restricted to the shapes the
inverter payloads use: strings, numbers (modelled exactly as rationals),
arrays and objects. -/
inductive JVal where
  | jstr : String → JVal
  | jnum : ℚ → JVal
  | jarr : List JVal → JVal
  | jobj : List (String × JVal) → JVal

/-- Whitespace characters accepted between tokens by the JSON grammar. -/
def isWs (c : Char) : Bool :=
  c = ' ' || c = '\t' || c = '\n' || c = '\r'

/-- Drop leading JSON whitespace. -/
def skipWs : List Char → List Char
  | [] => []
  | c :: rest => if isWs c then skipWs rest else c :: rest

/-- Single-character string escapes of JSON (`\uXXXX` is not modelled; it
does not occur in inverter payloads). -/
def escChar : Char → Option Char
  | 'n' => some '\n'
  | 't' => some '\t'
  | 'r' => some '\r'
  | 'b' => some (Char.ofNat 8)
  | 'f' => some (Char.ofNat 12)
  | '"' => some '"'
  | '/' => some '/'
  | '\\' => some '\\'
  | _ => none

/-- Read the characters of a JSON string after its opening quote, up to and
including the closing quote; returns the contents and the remaining input.
Raw control characters are rejected, as in `json.loads`. -/
def strChars : List Char → Option (List Char × List Char)
  | [] => none
  | '"' :: rest => some ([], rest)
  | '\\' :: e :: rest =>
    match escChar e with
    | none => none
    | some c =>
      match strChars rest with
      | none => none
      | some (s, r) => some (c :: s, r)
  | c :: rest =>
    if c.toNat < 32 then none
    else
      match strChars rest with
      | none => none
      | some (s, r) => some (c :: s, r)

/-- Characters that can occur inside a JSON number literal. -/
def numChar (c : Char) : Bool :=
  c.isDigit || c = '.' || c = '-' || c = '+' || c = 'e' || c = 'E'

/-- Longest prefix of decimal digits, and the remaining input. -/
def digitsPfx : List Char → List Char × List Char
  | [] => ([], [])
  | c :: rest =>
    if c.isDigit then
      let (d, r) := digitsPfx rest
      (c :: d, r)
    else ([], c :: rest)

/-- Numeric value of a list of decimal digits. -/
def natOfDigits (l : List Char) : ℕ :=
  l.foldl (fun a c => a * 10 + (c.toNat - 48)) 0

/-- Integer part of a JSON number: `0`, or a nonzero digit followed by more
digits (JSON forbids redundant leading zeros). -/
def intPart : List Char → Option (List Char × List Char)
  | [] => none
  | '0' :: rest => some (['0'], rest)
  | c :: rest =>
    if c.isDigit then
      let (d, r) := digitsPfx rest
      some (c :: d, r)
    else none

/-- Exponent suffix of a JSON number (after the `e`/`E`): optional sign and
at least one digit, consuming the whole remaining token. -/
def expPart (m : ℚ) (s : List Char) : Option ℚ :=
  let (neg, s1) : Bool × List Char :=
    match s with
    | '+' :: r => (false, r)
    | '-' :: r => (true, r)
    | _ => (false, s)
  match digitsPfx s1 with
  | ([], _) => none
  | (ed, r) =>
    if r = [] then
      some (if neg then m / (10 : ℚ) ^ natOfDigits ed else m * (10 : ℚ) ^ natOfDigits ed)
    else none

/-- Parse a complete token as a JSON number: optional minus, integer part,
optional fraction, optional exponent.  This is the number grammar of
`json.loads`; the value is exact, as a rational. -/
def parseNumFull (s : List Char) : Option ℚ :=
  let (sgn, s1) : ℚ × List Char :=
    match s with
    | '-' :: r => (-1, r)
    | _ => (1, s)
  match intPart s1 with
  | none => none
  | some (ip, r1) =>
    let iv : ℚ := natOfDigits ip
    match r1 with
    | [] => some (sgn * iv)
    | '.' :: r =>
      match digitsPfx r with
      | ([], _) => none
      | (fd, r2) =>
        let mv : ℚ := iv + (natOfDigits fd : ℚ) / (10 : ℚ) ^ fd.length
        match r2 with
        | [] => some (sgn * mv)
        | e :: r3 => if e = 'e' || e = 'E' then (expPart (sgn * mv) r3) else none
    | e :: r3 => if e = 'e' || e = 'E' then (expPart (sgn * iv) r3) else none

/-- Parse a JSON number at the head of the input: the maximal run of
number-literal characters must form a valid number token.  Agrees with the
scanner of `json.loads` on whether the surrounding parse succeeds. -/
def parseNum (s : List Char) : Option (ℚ × List Char) :=
  let (tok, rest) := s.span numChar
  match parseNumFull tok with
  | some q => some (q, rest)
  | none => none

/-- Value of a complete number token (0 when the token is not a number);
used to state what a payload parses to. -/
def numVal (t : List Char) : ℚ :=
  (parseNumFull t).getD 0

mutual

/-- Parse one JSON value.  The fuel bounds the number of values and object
members that may be encountered; every call site supplies at least the
input length plus one, which suffices. -/
def parseValue : ℕ → List Char → Option (JVal × List Char)
  | 0, _ => none
  | fuel + 1, s =>
    match skipWs s with
    | '"' :: rest =>
      match strChars rest with
      | some (cs, r) => some (.jstr (String.mk cs), r)
      | none => none
    | '[' :: rest =>
      match skipWs rest with
      | ']' :: r => some (.jarr [], r)
      | s2 =>
        match parseElems fuel s2 with
        | some (vs, r) => some (.jarr vs, r)
        | none => none
    | '\x7b' :: rest =>
      match skipWs rest with
      | '\x7d' :: r => some (.jobj [], r)
      | s2 =>
        match parseMembers fuel s2 with
        | some (ms, r) => some (.jobj ms, r)
        | none => none
    | s1 =>
      match parseNum s1 with
      | some (q, r) => some (.jnum q, r)
      | none => none

/-- Parse the comma-separated elements of a nonempty JSON array, up to and
including the closing bracket. -/
def parseElems : ℕ → List Char → Option (List JVal × List Char)
  | 0, _ => none
  | fuel + 1, s =>
    match parseValue fuel s with
    | none => none
    | some (v, r) =>
      match skipWs r with
      | ',' :: r2 =>
        match parseElems fuel r2 with
        | some (vs, r3) => some (v :: vs, r3)
        | none => none
      | ']' :: r2 => some ([v], r2)
      | _ => none

/-- Parse the members of a nonempty JSON object, up to and including the
closing brace. -/
def parseMembers : ℕ → List Char → Option (List (String × JVal) × List Char)
  | 0, _ => none
  | fuel + 1, s =>
    match skipWs s with
    | '"' :: rest =>
      match strChars rest with
      | none => none
      | some (k, r1) =>
        match skipWs r1 with
        | ':' :: r2 =>
          match parseValue fuel r2 with
          | none => none
          | some (v, r3) =>
            match skipWs r3 with
            | ',' :: r4 =>
              match parseMembers fuel r4 with
              | some (ms, r5) => some ((String.mk k, v) :: ms, r5)
              | none => none
            | '\x7d' :: r4 => some ([(String.mk k, v)], r4)
            | _ => none
        | _ => none
    | _ => none

end

/-- Model of `json.loads`: parse one value, allow trailing whitespace,
reject trailing garbage. -/
def parseJson (s : String) : Option JVal :=
  match parseValue (s.length + 1) s.data with
  | some (v, r) => if skipWs r = [] then some v else none
  | none => none

/-- One pass of Python's `str.replace(",,", ",0.0,")` on the character
list: leftmost occurrences, non-overlapping (scanning resumes after the
replacement text). -/
def repl : List Char → List Char
  | ',' :: ',' :: rest => ',' :: '0' :: '.' :: '0' :: ',' :: repl rest
  | c :: rest => c :: repl rest
  | [] => []

/-- Python's `formatted.replace(",,", ",0.0,")` on strings. -/
def replaceCC (s : String) : String :=
  String.mk (repl s.data)

/-- The XHybrid textual repair of `XHybrid.make_request`: the double
replacement `formatted.replace(",,", ",0.0,").replace(",,", ",0.0,")`. -/
def pyRepair (s : String) : String :=
  replaceCC (replaceCC s)

/-- Key lookup in a decoded JSON object.  Python's `json.loads` builds a
dict in which a repeated key keeps its last occurrence, so lookup scans
from the right. -/
def jlookup (m : List (String × JVal)) (k : String) : Option JVal :=
  (m.reverse.find? (fun p => p.1 == k)).map (fun p => p.2)

/-- Python's `len()` as used by `vol.Length`: defined for sized values
(str, list, dict); calling it on a number raises `TypeError`, modelled as
`none`. -/
def jlen : JVal → Option ℕ
  | .jstr s => some s.length
  | .jarr l => some l.length
  | .jobj m => some m.length
  | .jnum _ => none

/-- Integer literal as accepted by Python's `int(str)`: optional sign and
at least one digit. -/
def parseIntStr (s : List Char) : Option ℤ :=
  match s with
  | '-' :: d => if d ≠ [] ∧ d.all Char.isDigit then some (-(natOfDigits d : ℤ)) else none
  | '+' :: d => if d ≠ [] ∧ d.all Char.isDigit then some (natOfDigits d : ℤ) else none
  | d => if d ≠ [] ∧ d.all Char.isDigit then some (natOfDigits d : ℤ) else none

/-- Model of `vol.Coerce(float)`, i.e. Python `float(v)`: a JSON number is
returned as is; a string is accepted when it reads as a decimal number;
`float()` of a list or dict raises `TypeError`, which `vol.Coerce` catches
and turns into `Invalid` — hence `none`. -/
def coerceFloat : JVal → Option ℚ
  | .jnum q => some q
  | .jstr s =>
    match parseNumFull s.data with
    | some q => some q
    | none => none
  | _ => none

/-- Element-wise `vol.Coerce(float)` over a `Data` array, as the list
schema `[vol.Coerce(float)]` applies it: all elements must coerce. -/
def coerceAll : List JVal → Option (List ℚ)
  | [] => some []
  | v :: rest =>
    match coerceFloat v, coerceAll rest with
    | some q, some qs => some (q :: qs)
    | _, _ => none

/-- Model of `vol.Coerce(int)`, i.e. Python `int(v)`: truncates a number
toward zero, parses an integer literal from a string; `int()` of a list or
dict raises `TypeError`, which `vol.Coerce` catches — hence `none`. -/
def coerceInt : JVal → Option ℤ
  | .jnum q => some (if 0 ≤ q then q.floor else q.ceil)
  | .jstr s => parseIntStr s.data
  | _ => none

/-- Validation failures: `VErr.invalid` models `vol.Invalid` (which
`Inverter.get_data` catches); `VErr.typeErr` models a `TypeError` escaping
the schema, which happens exactly when `vol.Length` is applied to a value
without `len()` (voluptuous wraps callable validators catching only
`ValueError` and `Invalid`; `vol.Coerce` additionally catches `TypeError`
itself, but `vol.Length` does not). -/
inductive VErr where
  | invalid
  | typeErr
deriving DecidableEq

/-- The normalized result record, `InverterResponse` namedtuple. -/
structure InverterResponse where
  data : List (String × ℚ)
  serial_number : String
  version : String
  type : String
deriving DecidableEq

/-- Inverter.map_response: the dict comprehension
`sensor_name -> resp_data[i]` over the sensor map.  Python list indexing
raises `IndexError` when `i` is out of range, modelled as `none` for the
whole comprehension. -/
def map_response (resp_data : List ℚ) : List (String × ℕ × String) → Option (List (String × ℚ))
  | [] => some []
  | e :: rest =>
    match resp_data.get? e.2.1, map_response resp_data rest with
    | some v, some d => some ((e.1, v) :: d)
    | _, _ => none

namespace XHybrid

/-- The validated shape of an XHybrid payload, with the coercions the
schema performs applied. -/
structure Parsed where
  method : String
  version : String
  type : String
  SN : String
  Data : List ℚ
  Status : ℤ
deriving DecidableEq

/-- Length constraint on the XHybrid `Data` array:
`vol.Any(vol.Length(min=58, max=58), vol.Length(min=68, max=68))`. -/
def lenOk (n : ℕ) : Bool :=
  (58 ≤ n && n ≤ 58) || (68 ≤ n && n ≤ 68)

/-- The XHybrid `__schema`: required keys `method`, `version`, `type`,
`SN` (strings), `Data` (list of values coerced to float, length exactly 58
or exactly 68) and `Status` (coerced to int, non-negative); unknown keys
are dropped (`extra=vol.REMOVE_EXTRA`).  No validator of this schema can
raise `TypeError`: the only `len()` uses sit behind the list schema, which
guarantees a list. -/
def schema : JVal → Except VErr Parsed
  | .jobj m =>
    match jlookup m "method", jlookup m "version", jlookup m "type",
          jlookup m "SN", jlookup m "Data", jlookup m "Status" with
    | some (.jstr me), some (.jstr ve), some (.jstr ty), some (.jstr sn),
      some (.jarr d), some st =>
      match coerceAll d, coerceInt st with
      | some ds, some n =>
        if lenOk ds.length ∧ 0 ≤ n then .ok ⟨me, ve, ty, sn, ds, n⟩
        else .error .invalid
      | _, _ => .error .invalid
    | _, _, _, _, _, _ => .error .invalid
  | _ => .error .invalid

/-- Sensor table of the XHybrid variant: name, index into `Data`, unit
(informational only), in source order. -/
def sensor_map : List (String × ℕ × String) :=
  [("PV1 Current", 0, "A"),
   ("PV2 Current", 1, "A"),
   ("PV1 Voltage", 2, "V"),
   ("PV2 Voltage", 3, "V"),
   ("Output Current", 4, "A"),
   ("Network Voltage", 5, "V"),
   ("Power Now", 6, "W"),
   ("Inverter Temperature", 7, "C"),
   ("Today\x27s Energy", 8, "kWh"),
   ("Total Energy", 9, "kWh"),
   ("Exported Power", 10, "W"),
   ("PV1 Power", 11, "W"),
   ("PV2 Power", 12, "W"),
   ("Battery Voltage", 13, "V"),
   ("Battery Current", 14, "A"),
   ("Battery Power", 15, "W"),
   ("Battery Temperature", 16, "C"),
   ("Battery Remaining Capacity", 17, "%"),
   ("Month\x27s Energy", 19, "kWh"),
   ("Grid Frequency", 50, "Hz"),
   ("EPS Voltage", 53, "V"),
   ("EPS Current", 54, "A"),
   ("EPS Power", 55, "W"),
   ("EPS Frequency", 56, "Hz")]

end XHybrid

namespace X3

/-- The validated shape of an X3 payload.  `Information` is passed through
validated only for presence and length. -/
structure Parsed where
  type : String
  SN : String
  ver : String
  Data : List ℚ
  Information : JVal

/-- Length constraint on the X3 `Data` array: `vol.Length(min=103, max=103)`. -/
def lenOk (n : ℕ) : Bool :=
  103 ≤ n && n ≤ 103

/-- The X3 `__schema`: required keys `type`, `SN`, `ver` (strings), `Data`
(list of values coerced to float, length exactly 103) and `Information`
(any sized value of length exactly 9); unknown keys are dropped.  When the
`Information` value has no `len()` (a number), `vol.Length` raises
`TypeError`, which neither voluptuous nor `get_data` catches: errors on
other fields are merely collected into a `MultipleInvalid` raised at the
end of dict validation, so the `TypeError` escapes first — modelled as
`VErr.typeErr` taking precedence. -/
def schema : JVal → Except VErr Parsed
  | .jobj m =>
    match jlookup m "Information" with
    | none => .error .invalid
    | some info =>
      match jlen info with
      | none => .error .typeErr
      | some il =>
        match jlookup m "type", jlookup m "SN", jlookup m "ver",
              jlookup m "Data" with
        | some (.jstr ty), some (.jstr sn), some (.jstr ve), some (.jarr d) =>
          match coerceAll d with
          | some ds =>
            if lenOk ds.length ∧ il = 9 then .ok ⟨ty, sn, ve, ds, info⟩
            else .error .invalid
          | none => .error .invalid
        | _, _, _, _ => .error .invalid
  | _ => .error .invalid

/-- Sensor table of the X3 variant, in source order. -/
def sensor_map : List (String × ℕ × String) :=
  [("PV1 Current", 0, "A"),
   ("PV2 Current", 1, "A"),
   ("PV1 Voltage", 2, "V"),
   ("PV2 Voltage", 3, "V"),
   ("Output Current Phase 1", 4, "A"),
   ("Network Voltage Phase 1", 5, "V"),
   ("AC Power", 6, "W"),
   ("Inverter Temperature", 7, "C"),
   ("Today\x27s Energy", 8, "kWh"),
   ("Total Energy", 9, "kWh"),
   ("Exported Power", 10, "W"),
   ("PV1 Power", 11, "W"),
   ("PV2 Power", 12, "W"),
   ("Battery Voltage", 13, "V"),
   ("Battery Current", 14, "A"),
   ("Battery Power", 15, "W"),
   ("Battery Temperature", 16, "C"),
   ("Battery Remaining Capacity", 21, "%"),
   ("Total Feed-in Energy", 41, "kWh"),
   ("Total Consumption", 42, "kWh"),
   ("Power Now Phase 1", 43, "W"),
   ("Power Now Phase 2", 44, "W"),
   ("Power Now Phase 3", 45, "W"),
   ("Output Current Phase 2", 46, "A"),
   ("Output Current Phase 3", 47, "A"),
   ("Network Voltage Phase 2", 48, "V"),
   ("Network Voltage Phase 3", 49, "V"),
   ("Grid Frequency Phase 1", 50, "Hz"),
   ("Grid Frequency Phase 2", 51, "Hz"),
   ("Grid Frequency Phase 3", 52, "Hz"),
   ("EPS Voltage", 53, "V"),
   ("EPS Current", 54, "A"),
   ("EPS Power", 55, "W"),
   ("EPS Frequency", 56, "Hz")]

end X3

/-- Python exceptions that `make_request` can raise once a body has been
read: `ValueError` from `json.loads` on a non-JSON body, `vol.Invalid`
from the schema, an escaping `TypeError` from `vol.Length` on a sized-less
value, and `IndexError` from `resp_data[i]` in `map_response` (the last is
proved unreachable). -/
inductive PyErr where
  | valueError
  | volInvalid
  | typeError
  | indexError
deriving DecidableEq

/-- XHybrid.make_request after the HTTP read: decode (bodies are modelled
as text), repair the commas twice, `json.loads`, validate against the
schema, and build the `InverterResponse` with `SN -> serial_number`,
`version -> version`, `type -> type`. -/
def XHybrid.make_request (body : String) : Except PyErr InverterResponse :=
  match parseJson (pyRepair body) with
  | none => .error .valueError
  | some j =>
    match XHybrid.schema j with
    | .error .invalid => .error .volInvalid
    | .error .typeErr => .error .typeError
    | .ok p =>
      match map_response p.Data XHybrid.sensor_map with
      | none => .error .indexError
      | some d => .ok ⟨d, p.SN, p.version, p.type⟩

/-- X3.make_request after the HTTP read: `json.loads` on the raw body (no
repair), validate, and build the `InverterResponse` with
`SN -> serial_number`, `ver -> version`, `type -> type`. -/
def X3.make_request (body : String) : Except PyErr InverterResponse :=
  match parseJson body with
  | none => .error .valueError
  | some j =>
    match X3.schema j with
    | .error .invalid => .error .volInvalid
    | .error .typeErr => .error .typeError
    | .ok p =>
      match map_response p.Data X3.sensor_map with
      | none => .error .indexError
      | some d => .ok ⟨d, p.SN, p.ver, p.type⟩

/-- The two registered variant adapters. -/
inductive AdapterId where
  | xhybrid
  | x3
deriving DecidableEq

/-- Dispatch `make_request` by variant. -/
def make_request : AdapterId → String → Except PyErr InverterResponse
  | .xhybrid, b => XHybrid.make_request b
  | .x3, b => X3.make_request b

/-- Causes recorded by `InverterError` (`raise InverterError(msg) from ex`):
the caught `aiohttp.ClientError`, `ValueError` or `vol.Invalid`. -/
inductive Cause where
  | clientError
  | valueError
  | volInvalid
deriving DecidableEq

/-- The unified communication error of the wrapper, with its message and
the original cause. -/
structure InverterError where
  msg : String
  cause : Cause
deriving DecidableEq

/-- Result of one `get_data` call: a response, a raised `InverterError`,
or a Python exception that none of the `except` clauses catches. -/
inductive Outcome where
  | ok (r : InverterResponse)
  | err (e : InverterError)
  | uncaught (e : PyErr)
deriving DecidableEq

/-- The transport outcome the HTTP client reports for one request: an
`aiohttp.ClientError`, or the response body (modelled as text). -/
def Transport : Type := Except Unit String

/-- Inverter.get_data: run `make_request` and unify the three caught
exception families into `InverterError`, keeping the cause.  A `TypeError`
or `IndexError` matches no `except` clause and escapes. -/
def get_data (a : AdapterId) (transport : Transport) : Outcome :=
  match transport with
  | .error _ => .err ⟨"Could not connect to inverter endpoint", .clientError⟩
  | .ok body =>
    match make_request a body with
    | .ok r => .ok r
    | .error .valueError => .err ⟨"Received non-JSON data from inverter endpoint", .valueError⟩
    | .error .volInvalid => .err ⟨"Received malformed JSON from inverter", .volInvalid⟩
    | .error .typeError => .uncaught .typeError
    | .error .indexError => .uncaught .indexError

/-- Whether an outcome is one of the contractual ones: a response or the
unified `InverterError`. -/
def Outcome.unified : Outcome → Bool
  | .ok _ => true
  | .err _ => true
  | .uncaught _ => false

/-- The registry of inverters, in declared order. -/
def REGISTRY : List AdapterId := [AdapterId.xhybrid, AdapterId.x3]

/-- Result of `discover`: the first adapter whose probe succeeded, the
final `DiscoveryError`, or an escaping Python exception. -/
inductive DiscResult where
  | found (a : AdapterId)
  | discoveryError
  | crash (e : PyErr)
deriving DecidableEq

/-- The loop of `discover`: try each registry entry; return the adapter
instance on the first success; absorb `InverterError` and continue; let
any other exception escape; raise `DiscoveryError` when the list is
exhausted.  The per-variant transport outcomes are the environment. -/
def discoverGo (env : AdapterId → Transport) : List AdapterId → DiscResult
  | [] => .discoveryError
  | a :: rest =>
    match get_data a (env a) with
    | .ok _ => .found a
    | .err _ => discoverGo env rest
    | .uncaught e => .crash e

/-- The `discover(host, port)` coroutine over the fixed registry.  Note it
returns the adapter object `i`, not the response `get_data` produced. -/
def discover (env : AdapterId → Transport) : DiscResult :=
  discoverGo env REGISTRY

/-- Result type of the discovery operation as the specification words it:
the succeeding adapter's `Response`. -/
inductive DiscSpecResult where
  | found (r : InverterResponse)
  | discoveryError
  | crash (e : PyErr)
deriving DecidableEq

/-- Discovery as the specification describes it ("on success, return
immediately with that Adapter's Response"): identical trial order and
error absorption, but the success value is the probe's response.  Stated
for comparison with `discover`, which returns the adapter instead. -/
def discoverSpecGo (env : AdapterId → Transport) : List AdapterId → DiscSpecResult
  | [] => .discoveryError
  | a :: rest =>
    match get_data a (env a) with
    | .ok r => .found r
    | .err _ => discoverSpecGo env rest
    | .uncaught e => .crash e

/-- The spec-worded discovery operation over the fixed registry. -/
def discoverSpec (env : AdapterId → Transport) : DiscSpecResult :=
  discoverSpecGo env REGISTRY

/-- Payload family for the XHybrid schema: fixed well-formed metadata
around an arbitrary `Data` array of numbers. -/
def xhPayloadD (d : List ℚ) : JVal :=
  .jobj [("method", .jstr "m"), ("version", .jstr "v"), ("type", .jstr "t"),
         ("SN", .jstr "s"), ("Data", .jarr (d.map .jnum)), ("Status", .jnum 2)]

/-- Payload family for the XHybrid schema: fixed well-formed fields around
an arbitrary integer `Status`. -/
def xhPayloadS (st : ℤ) : JVal :=
  .jobj [("method", .jstr "m"), ("version", .jstr "v"), ("type", .jstr "t"),
         ("SN", .jstr "s"), ("Data", .jarr (List.replicate 58 (.jnum 1))),
         ("Status", .jnum (st : ℚ))]

/-- Payload family for the X3 schema: fixed well-formed metadata around an
arbitrary `Data` array of numbers and an `Information` array of length `m`. -/
def x3PayloadDM (d : List ℚ) (m : ℕ) : JVal :=
  .jobj [("type", .jstr "t"), ("SN", .jstr "s"), ("ver", .jstr "v"),
         ("Data", .jarr (d.map .jnum)), ("Information", .jarr (List.replicate m (.jnum 1)))]

/-- Canonical well-formed XHybrid sample data (58 entries). -/
def xhSampleData : List ℚ := List.replicate 58 1

/-- Canonical well-formed XHybrid sample payload. -/
def xhSampleJ : JVal := xhPayloadD xhSampleData

/-- The validated form of `xhSampleJ`. -/
def xhSampleP : XHybrid.Parsed := ⟨"m", "v", "t", "s", xhSampleData, 2⟩

/-- Canonical well-formed X3 sample data (103 entries). -/
def x3SampleData : List ℚ := List.replicate 103 1

/-- Canonical well-formed X3 sample payload. -/
def x3SampleJ : JVal := x3PayloadDM x3SampleData 9

/-- The validated form of `x3SampleJ`. -/
def x3SampleP : X3.Parsed := ⟨"t", "s", "v", x3SampleData, .jarr (List.replicate 9 (.jnum 1))⟩

/-- A raw body text that parses to `xhSampleJ`. -/
def xhSampleBody : String :=
  "\x7b\"method\":\"m\",\"version\":\"v\",\"type\":\"t\",\"SN\":\"s\",\"Data\":["
    ++ String.intercalate "," (List.replicate 58 "1") ++ "],\"Status\":2\x7d"

/-- A raw body text that parses to `x3SampleJ`. -/
def x3SampleBody : String :=
  "\x7b\"type\":\"t\",\"SN\":\"s\",\"ver\":\"v\",\"Data\":["
    ++ String.intercalate "," (List.replicate 103 "1")
    ++ "],\"Information\":[1,1,1,1,1,1,1,1,1]\x7d"

/-- An X3 body whose `Information` field is a number: JSON-valid and with
valid `Data`, but `len()` of a number raises `TypeError` inside
`vol.Length`, which no `except` clause catches. -/
def x3BadInfoBody : String :=
  "\x7b\"type\":\"t\",\"SN\":\"s\",\"ver\":\"v\",\"Data\":["
    ++ String.intercalate "," (List.replicate 103 "1")
    ++ "],\"Information\":5\x7d"

/-- An XHybrid body whose `SN` string value contains two consecutive
commas as sent by the device. -/
def c9Body : String :=
  "\x7b\"method\":\"m\",\"version\":\"v\",\"type\":\"t\",\"SN\":\"AB,,CD\",\"Data\":["
    ++ String.intercalate "," (List.replicate 58 "1") ++ "],\"Status\":2\x7d"

/-- An environment in which the XHybrid probe receives junk and the X3
probe a valid body whose first Data value is the token `v`. -/
def envX3Only (v : String) : AdapterId → Transport
  | .xhybrid => .ok "junk"
  | .x3 => .ok ("\x7b\"type\":\"t\",\"SN\":\"s\",\"ver\":\"v\",\"Data\":["
      ++ String.intercalate "," (v :: List.replicate 102 "1")
      ++ "],\"Information\":[1,1,1,1,1,1,1,1,1]\x7d")

/-- The response the X3 probe of `envX3Only` produces when the first Data
value is the rational `v`. -/
def envX3OnlyResp (v : ℚ) : InverterResponse :=
  { data := X3.sensor_map.map (fun e => (e.1, ((v :: List.replicate 102 1) : List ℚ).getD e.2.1 0)),
    serial_number := "s", version := "v", type := "t" }

/-- Whether a token is a complete JSON number written over the
number-literal alphabet; the numeric values of a raw Data segment are such
tokens. -/
def numTok (t : List Char) : Bool :=
  (match parseNumFull t with
   | some _ => true
   | none => false) && t.all numChar

/-- Characters that need no escaping inside a JSON string literal. -/
def plainChar (c : Char) : Bool :=
  !(c = '"' || c = '\\' || decide (c.toNat < 32))

/-- Whether a character list contains no two consecutive commas (no
occurrence of the pattern the repair replaces). -/
def noCC : List Char → Bool
  | ',' :: ',' :: _ => false
  | _ :: rest => noCC rest
  | [] => true

/-- Result of one replacement pass on a run of `m + 1` commas followed by
a non-comma: what `repl` leaves of the run (`m` is the omission count,
`m ≤ 3`). -/
def gOut : ℕ → List Char
  | 0 => [',']
  | 1 => [',', '0', '.', '0', ',']
  | 2 => [',', '0', '.', '0', ',', ',']
  | 3 => [',', '0', '.', '0', ',', ',', '0', '.', '0', ',']
  | _ + 4 => []

/-- The characters `0.0,` repeated `m` times: the fully repaired text of
`m` omitted values. -/
def zerosSeq : ℕ → List Char
  | 0 => []
  | m + 1 => '0' :: '.' :: '0' :: ',' :: zerosSeq m

/-- Render the tail of a raw Data segment: before each further value
token, one separator plus `m` extra separators for its `m` omitted
values. -/
def renderRest : List (ℕ × List Char) → List Char
  | [] => []
  | (m, t) :: rs => List.replicate (m + 1) ',' ++ t ++ renderRest rs

/-- The same segment tail after one replacement pass. -/
def passOne : List (ℕ × List Char) → List Char
  | [] => []
  | (m, t) :: rs => gOut m ++ t ++ passOne rs

/-- The same segment tail after both replacement passes: every omission
appears as an explicit `0.0` entry. -/
def renderRestFilled : List (ℕ × List Char) → List Char
  | [] => []
  | (m, t) :: rs => ',' :: (zerosSeq m ++ t ++ renderRestFilled rs)

/-- Total number of Data entries contributed by the segment tail: each
group adds its token plus its `m` zeros. -/
def entryCount : List (ℕ × List Char) → ℕ
  | [] => 0
  | (m, _) :: rs => m + 1 + entryCount rs

/-- The values the repaired segment tail parses to: `m` zeros before each
token's value. -/
def filledValsRest : List (ℕ × List Char) → List ℚ
  | [] => []
  | (m, t) :: rs => List.replicate m 0 ++ numVal t :: filledValsRest rs

/-- The token list of the repaired segment tail: `m` literal `0.0` tokens
before each value token. -/
def flatToksRest : List (ℕ × List Char) → List (List Char)
  | [] => []
  | (m, t) :: rs => List.replicate m ['0', '.', '0'] ++ t :: flatToksRest rs

/-- Comma-separated rendering of a token list. -/
def intercalToks : List (List Char) → List Char
  | [] => []
  | [t] => t
  | t :: ts => t ++ ',' :: intercalToks ts

/-- Fixed text of the XHybrid raw-payload family before the Data values. -/
def xhPre : List Char :=
  ("\x7b\"method\":\"m\",\"version\":\"v\",\"type\":\"t\",\"SN\":\"s\",\"Status\":\"1\",\"Data\":[" : String).data

/-- Fixed text of the XHybrid raw-payload family after the Data values. -/
def xhPost : List Char := ("]\x7d" : String).data

/-- The raw XHybrid body whose Data segment starts with token `t0` and
continues, for each `(m, t)` in `rest`, with `m` omitted values
(`m + 1` consecutive separators) and then token `t`. -/
def xhRawBody (t0 : List Char) (rest : List (ℕ × List Char)) : String :=
  String.mk (xhPre ++ t0 ++ renderRest rest ++ xhPost)

/-- The same body after the double comma repair: every omission filled
with an explicit `0.0`. -/
def xhFilledBody (t0 : List Char) (rest : List (ℕ × List Char)) : String :=
  String.mk (xhPre ++ t0 ++ renderRestFilled rest ++ xhPost)

/-- The JSON value the repaired body parses to: each omitted value is 0. -/
def xhRawJVal (t0 : List Char) (rest : List (ℕ × List Char)) : JVal :=
  .jobj [("method", .jstr "m"), ("version", .jstr "v"), ("type", .jstr "t"),
         ("SN", .jstr "s"), ("Status", .jstr "1"),
         ("Data", .jarr ((numVal t0 :: filledValsRest rest).map .jnum))]

/- ------------------------------------------------------------------ -/
/- Helper lemmas.                                                      -/
/- ------------------------------------------------------------------ -/

theorem coerceAll_map_jnum : ∀ l : List ℚ, coerceAll (l.map JVal.jnum) = some l := by
  intro l
  induction l with
  | nil => rfl
  | cons a l ih => simp [coerceAll, coerceFloat, List.map_cons, ih]

theorem xh_lenOk_iff (n : ℕ) : XHybrid.lenOk n = true ↔ (n = 58 ∨ n = 68) := by
  unfold XHybrid.lenOk
  simp only [Bool.or_eq_true, Bool.and_eq_true, decide_eq_true_eq]
  omega

theorem x3_lenOk_iff (n : ℕ) : X3.lenOk n = true ↔ n = 103 := by
  unfold X3.lenOk
  simp only [Bool.and_eq_true, decide_eq_true_eq]
  omega

theorem xh_schema_payloadD (d : List ℚ) :
    XHybrid.schema (xhPayloadD d) =
      if XHybrid.lenOk d.length then .ok ⟨"m", "v", "t", "s", d, 2⟩
      else .error .invalid := by
  have h1 : jlookup [("method", JVal.jstr "m"), ("version", .jstr "v"), ("type", .jstr "t"),
      ("SN", .jstr "s"), ("Data", .jarr (d.map .jnum)), ("Status", .jnum 2)] "method"
      = some (.jstr "m") := rfl
  have h2 : jlookup [("method", JVal.jstr "m"), ("version", .jstr "v"), ("type", .jstr "t"),
      ("SN", .jstr "s"), ("Data", .jarr (d.map .jnum)), ("Status", .jnum 2)] "version"
      = some (.jstr "v") := rfl
  have h3 : jlookup [("method", JVal.jstr "m"), ("version", .jstr "v"), ("type", .jstr "t"),
      ("SN", .jstr "s"), ("Data", .jarr (d.map .jnum)), ("Status", .jnum 2)] "type"
      = some (.jstr "t") := rfl
  have h4 : jlookup [("method", JVal.jstr "m"), ("version", .jstr "v"), ("type", .jstr "t"),
      ("SN", .jstr "s"), ("Data", .jarr (d.map .jnum)), ("Status", .jnum 2)] "SN"
      = some (.jstr "s") := rfl
  have h5 : jlookup [("method", JVal.jstr "m"), ("version", .jstr "v"), ("type", .jstr "t"),
      ("SN", .jstr "s"), ("Data", .jarr (d.map .jnum)), ("Status", .jnum 2)] "Data"
      = some (.jarr (d.map .jnum)) := rfl
  have h6 : jlookup [("method", JVal.jstr "m"), ("version", .jstr "v"), ("type", .jstr "t"),
      ("SN", .jstr "s"), ("Data", .jarr (d.map .jnum)), ("Status", .jnum 2)] "Status"
      = some (.jnum 2) := rfl
  have hf : Rat.floor 2 = 2 := rfl
  simp only [XHybrid.schema, xhPayloadD, h1, h2, h3, h4, h5, h6, coerceAll_map_jnum]
  simp [coerceInt, List.length_map, hf]

theorem x3_schema_payloadDM (d : List ℚ) (m : ℕ) :
    X3.schema (x3PayloadDM d m) =
      if X3.lenOk d.length ∧ m = 9 then
        .ok ⟨"t", "s", "v", d, .jarr (List.replicate m (.jnum 1))⟩
      else .error .invalid := by
  have h1 : jlookup [("type", JVal.jstr "t"), ("SN", .jstr "s"), ("ver", .jstr "v"),
      ("Data", .jarr (d.map .jnum)), ("Information", .jarr (List.replicate m (.jnum 1)))]
      "Information" = some (.jarr (List.replicate m (.jnum 1))) := rfl
  have h2 : jlookup [("type", JVal.jstr "t"), ("SN", .jstr "s"), ("ver", .jstr "v"),
      ("Data", .jarr (d.map .jnum)), ("Information", .jarr (List.replicate m (.jnum 1)))]
      "type" = some (.jstr "t") := rfl
  have h3 : jlookup [("type", JVal.jstr "t"), ("SN", .jstr "s"), ("ver", .jstr "v"),
      ("Data", .jarr (d.map .jnum)), ("Information", .jarr (List.replicate m (.jnum 1)))]
      "SN" = some (.jstr "s") := rfl
  have h4 : jlookup [("type", JVal.jstr "t"), ("SN", .jstr "s"), ("ver", .jstr "v"),
      ("Data", .jarr (d.map .jnum)), ("Information", .jarr (List.replicate m (.jnum 1)))]
      "ver" = some (.jstr "v") := rfl
  have h5 : jlookup [("type", JVal.jstr "t"), ("SN", .jstr "s"), ("ver", .jstr "v"),
      ("Data", .jarr (d.map .jnum)), ("Information", .jarr (List.replicate m (.jnum 1)))]
      "Data" = some (.jarr (d.map .jnum)) := rfl
  simp only [X3.schema, x3PayloadDM, h1, h2, h3, h4, h5, coerceAll_map_jnum, jlen]
  simp [List.length_map, List.length_replicate]

theorem xh_schema_ok_length (j : JVal) (p : XHybrid.Parsed)
    (h : XHybrid.schema j = .ok p) : p.Data.length = 58 ∨ p.Data.length = 68 := by
  unfold XHybrid.schema at h
  split at h
  case _ m =>
    split at h
    case _ me ve ty sn d st =>
      split at h
      case _ ds n =>
        split at h
        case isTrue hc =>
          cases h
          exact (xh_lenOk_iff _).mp hc.1
        case isFalse => exact absurd h (by simp)
      case _ => exact absurd h (by simp)
    case _ => exact absurd h (by simp)
  case _ => exact absurd h (by simp)

theorem x3_schema_ok_length (j : JVal) (p : X3.Parsed)
    (h : X3.schema j = .ok p) : p.Data.length = 103 := by
  unfold X3.schema at h
  split at h
  case _ m =>
    split at h
    case _ => exact absurd h (by simp)
    case _ info =>
      split at h
      case _ => exact absurd h (by simp)
      case _ il =>
        split at h
        case _ ty sn ve d =>
          split at h
          case _ ds =>
            split at h
            case isTrue hc =>
              cases h
              exact (x3_lenOk_iff _).mp hc.1
            case isFalse => exact absurd h (by simp)
          case _ => exact absurd h (by simp)
        case _ => exact absurd h (by simp)
  case _ => exact absurd h (by simp)

theorem xh_schema_not_typeErr (j : JVal) : XHybrid.schema j ≠ .error .typeErr := by
  unfold XHybrid.schema
  split
  case _ m =>
    split
    case _ me ve ty sn d st =>
      split
      case _ ds n => split <;> simp
      case _ => simp
    case _ => simp
  case _ => simp

theorem map_response_eq (data : List ℚ) :
    ∀ smap : List (String × ℕ × String), (∀ e ∈ smap, e.2.1 < data.length) →
      map_response data smap = some (smap.map (fun e => (e.1, data.getD e.2.1 0))) := by
  intro smap
  induction smap with
  | nil => intro _; rfl
  | cons e rest ih =>
    intro h
    have h1 : e.2.1 < data.length := h e (List.mem_cons_self e rest)
    have h2 := ih (fun x hx => h x (List.mem_cons_of_mem _ hx))
    obtain ⟨v, hv⟩ : ∃ v, data.get? e.2.1 = some v := by
      rw [List.get?_eq_getElem?]
      exact ⟨data[e.2.1], List.getElem?_eq_getElem h1⟩
    have hd : data.getD e.2.1 0 = v := by
      rw [List.getD_eq_getElem?_getD, ← List.get?_eq_getElem?, hv]
      rfl
    rw [List.get?_eq_getElem?] at hv
    simp [map_response, h2, hv, hd]

theorem coerceAll_replicate (n : ℕ) (q : ℚ) :
    coerceAll (List.replicate n (JVal.jnum q)) = some (List.replicate n q) := by
  have h := coerceAll_map_jnum (List.replicate n q)
  rwa [List.map_replicate] at h

theorem xh_schema_payloadS (st : ℤ) :
    XHybrid.schema (xhPayloadS st) =
      if 0 ≤ st then .ok ⟨"m", "v", "t", "s", List.replicate 58 1, st⟩
      else .error .invalid := by
  have h1 : jlookup [("method", JVal.jstr "m"), ("version", .jstr "v"), ("type", .jstr "t"),
      ("SN", .jstr "s"), ("Data", .jarr (List.replicate 58 (.jnum 1))),
      ("Status", .jnum (st : ℚ))] "method" = some (.jstr "m") := rfl
  have h2 : jlookup [("method", JVal.jstr "m"), ("version", .jstr "v"), ("type", .jstr "t"),
      ("SN", .jstr "s"), ("Data", .jarr (List.replicate 58 (.jnum 1))),
      ("Status", .jnum (st : ℚ))] "version" = some (.jstr "v") := rfl
  have h3 : jlookup [("method", JVal.jstr "m"), ("version", .jstr "v"), ("type", .jstr "t"),
      ("SN", .jstr "s"), ("Data", .jarr (List.replicate 58 (.jnum 1))),
      ("Status", .jnum (st : ℚ))] "type" = some (.jstr "t") := rfl
  have h4 : jlookup [("method", JVal.jstr "m"), ("version", .jstr "v"), ("type", .jstr "t"),
      ("SN", .jstr "s"), ("Data", .jarr (List.replicate 58 (.jnum 1))),
      ("Status", .jnum (st : ℚ))] "SN" = some (.jstr "s") := rfl
  have h5 : jlookup [("method", JVal.jstr "m"), ("version", .jstr "v"), ("type", .jstr "t"),
      ("SN", .jstr "s"), ("Data", .jarr (List.replicate 58 (.jnum 1))),
      ("Status", .jnum (st : ℚ))] "Data" = some (.jarr (List.replicate 58 (.jnum 1))) := rfl
  have h6 : jlookup [("method", JVal.jstr "m"), ("version", .jstr "v"), ("type", .jstr "t"),
      ("SN", .jstr "s"), ("Data", .jarr (List.replicate 58 (.jnum 1))),
      ("Status", .jnum (st : ℚ))] "Status" = some (.jnum (st : ℚ)) := rfl
  have hlen : XHybrid.lenOk 58 = true := by decide
  have hfl : ((st : ℚ)).floor = st := by
    unfold Rat.floor
    simp [Rat.num_intCast, Rat.den_intCast]
  have hcl : ((st : ℚ)).ceil = st := by
    unfold Rat.ceil
    simp [Rat.num_intCast, Rat.den_intCast]
  simp only [XHybrid.schema, xhPayloadS, h1, h2, h3, h4, h5, h6, coerceAll_replicate, coerceInt]
  by_cases hst : 0 ≤ st
  · have hc : (0 : ℚ) ≤ (st : ℚ) := by exact_mod_cast hst
    simp [hc, hfl, hst, hlen]
  · have hc : ¬ (0 : ℚ) ≤ (st : ℚ) := by exact_mod_cast hst
    simp [hc, hcl, hst]

theorem xh_indices_lt : ∀ e ∈ XHybrid.sensor_map, e.2.1 < 58 := by decide

theorem x3_indices_lt : ∀ e ∈ X3.sensor_map, e.2.1 < 103 := by decide

theorem xh_make_request_ok (body : String) (j : JVal) (p : XHybrid.Parsed)
    (hp : parseJson (pyRepair body) = some j) (hs : XHybrid.schema j = .ok p) :
    XHybrid.make_request body =
      .ok ⟨XHybrid.sensor_map.map (fun e => (e.1, p.Data.getD e.2.1 0)),
           p.SN, p.version, p.type⟩ := by
  have hb : ∀ e ∈ XHybrid.sensor_map, e.2.1 < p.Data.length := by
    intro e he
    have hl := xh_schema_ok_length j p hs
    have := xh_indices_lt e he
    omega
  have hm := map_response_eq p.Data XHybrid.sensor_map hb
  simp only [XHybrid.make_request, hp, hs, hm]

theorem x3_make_request_ok (body : String) (j : JVal) (p : X3.Parsed)
    (hp : parseJson body = some j) (hs : X3.schema j = .ok p) :
    X3.make_request body =
      .ok ⟨X3.sensor_map.map (fun e => (e.1, p.Data.getD e.2.1 0)),
           p.SN, p.ver, p.type⟩ := by
  have hb : ∀ e ∈ X3.sensor_map, e.2.1 < p.Data.length := by
    intro e he
    have hl := x3_schema_ok_length j p hs
    have := x3_indices_lt e he
    omega
  have hm := map_response_eq p.Data X3.sensor_map hb
  simp only [X3.make_request, hp, hs, hm]

/- ------------------------------------------------------------------ -/
/- Claim theorems.                                                     -/
/- ------------------------------------------------------------------ -/

/-- C7 (amended): the XHybrid sensor map has 24 named entries at the fixed
indices 0-17, 19, 50, 53-56, and the X3 sensor map has 34 named entries at
fixed indices all within the 0-56 range, with index 21 mapped to battery
remaining capacity in X3.  (The claim's counts of 23 and 31 are wrong; the
index sets are as claimed.) -/
theorem C7_sensor_map_layout :
    XHybrid.sensor_map.length = 24 ∧
    XHybrid.sensor_map.map (fun e => e.2.1) =
      [0, 1, 2, 3, 4, 5, 6, 7, 8, 9, 10, 11, 12, 13, 14, 15, 16, 17, 19, 50, 53, 54, 55, 56] ∧
    X3.sensor_map.length = 34 ∧
    X3.sensor_map.all (fun e => e.2.1 ≤ 56) = true ∧
    ("Battery Remaining Capacity", 21, "%") ∈ X3.sensor_map := by
  refine ⟨by decide, by decide, by decide, by decide, by decide⟩

/-- C7 counterexample: the sensor maps do not have 23 and 31 entries as
the claim states; they have 24 and 34. -/
theorem C7_counterexample :
    ¬(XHybrid.sensor_map.length = 23 ∧ X3.sensor_map.length = 31) := by decide

/-- C6: every index in each sensor map is below the minimum Data length
its schema guarantees (58 for XHybrid, 103 for X3), and therefore
`map_response` on any schema-validated Data array succeeds (never raises
`IndexError`). -/
theorem C6_sensor_indices_in_bounds :
    (∀ e ∈ XHybrid.sensor_map, e.2.1 < 58) ∧
    (∀ e ∈ X3.sensor_map, e.2.1 < 103) ∧
    (∀ j p, XHybrid.schema j = .ok p →
      (map_response p.Data XHybrid.sensor_map).isSome = true) ∧
    (∀ j p, X3.schema j = .ok p →
      (map_response p.Data X3.sensor_map).isSome = true) := by
  refine ⟨xh_indices_lt, x3_indices_lt, ?_, ?_⟩
  · intro j p hs
    have hb : ∀ e ∈ XHybrid.sensor_map, e.2.1 < p.Data.length := by
      intro e he
      have := xh_indices_lt e he
      have := xh_schema_ok_length j p hs
      omega
    rw [map_response_eq p.Data XHybrid.sensor_map hb]
    rfl
  · intro j p hs
    have hb : ∀ e ∈ X3.sensor_map, e.2.1 < p.Data.length := by
      intro e he
      have := x3_indices_lt e he
      have := x3_schema_ok_length j p hs
      omega
    rw [map_response_eq p.Data X3.sensor_map hb]
    rfl

/-- C6 witness: the bound and the mapping success hold on the canonical
sample payloads. -/
theorem C6_witness :
    (map_response xhSampleP.Data XHybrid.sensor_map).isSome = true ∧
    (map_response x3SampleP.Data X3.sensor_map).isSome = true :=
  ⟨C6_sensor_indices_in_bounds.2.2.1 xhSampleJ xhSampleP rfl,
   C6_sensor_indices_in_bounds.2.2.2 x3SampleJ x3SampleP rfl⟩

/-- C4: with well-formed metadata fixed, an XHybrid payload validates
exactly when its Data array has length 58 or 68, and an X3 payload
validates exactly when its Data array has length 103 and its Information
field has length 9. -/
theorem C4_exact_lengths :
    (∀ d : List ℚ,
      (XHybrid.schema (xhPayloadD d)).isOk = true ↔ (d.length = 58 ∨ d.length = 68)) ∧
    (∀ (d : List ℚ) (m : ℕ),
      (X3.schema (x3PayloadDM d m)).isOk = true ↔ (d.length = 103 ∧ m = 9)) := by
  constructor
  · intro d
    rw [xh_schema_payloadD, ← xh_lenOk_iff]
    by_cases h : XHybrid.lenOk d.length <;> simp [h, Except.isOk, Except.toBool]
  · intro d m
    rw [x3_schema_payloadDM]
    have hiff : (X3.lenOk d.length = true ∧ m = 9) ↔ (d.length = 103 ∧ m = 9) := by
      rw [x3_lenOk_iff]
    rw [← hiff]
    by_cases h : X3.lenOk d.length = true ∧ m = 9 <;> simp [h, Except.isOk, Except.toBool]

/-- C4 witness: lengths 58 and 68 validate and lengths 57, 69 do not for
XHybrid; 103/9 validates and 102 does not for X3. -/
theorem C4_witness :
    (XHybrid.schema (xhPayloadD (List.replicate 58 1))).isOk = true ∧
    (XHybrid.schema (xhPayloadD (List.replicate 68 1))).isOk = true ∧
    ¬(XHybrid.schema (xhPayloadD (List.replicate 57 1))).isOk = true ∧
    ¬(XHybrid.schema (xhPayloadD (List.replicate 69 1))).isOk = true ∧
    (X3.schema (x3PayloadDM (List.replicate 103 1) 9)).isOk = true ∧
    ¬(X3.schema (x3PayloadDM (List.replicate 102 1) 9)).isOk = true :=
  ⟨(C4_exact_lengths.1 _).mpr (Or.inl (by simp)),
   (C4_exact_lengths.1 _).mpr (Or.inr (by simp)),
   fun h => by simpa using (C4_exact_lengths.1 _).mp h,
   fun h => by simpa using (C4_exact_lengths.1 _).mp h,
   (C4_exact_lengths.2 _ _).mpr (by simp),
   fun h => by simpa using (C4_exact_lengths.2 _ _).mp h⟩

/-- C10: the Data elements of both schemas are coerced to float with no
range constraint — any rational values (negative or arbitrarily large)
validate and appear unchanged in the readings — while the XHybrid Status
field alone carries a non-negativity check. -/
theorem C10_no_range_on_data :
    (∀ d : List ℚ, d.length = 58 →
      XHybrid.schema (xhPayloadD d) = .ok ⟨"m", "v", "t", "s", d, 2⟩ ∧
      map_response d XHybrid.sensor_map
        = some (XHybrid.sensor_map.map (fun e => (e.1, d.getD e.2.1 0)))) ∧
    (∀ d : List ℚ, d.length = 103 →
      X3.schema (x3PayloadDM d 9) = .ok ⟨"t", "s", "v", d, .jarr (List.replicate 9 (.jnum 1))⟩ ∧
      map_response d X3.sensor_map
        = some (X3.sensor_map.map (fun e => (e.1, d.getD e.2.1 0)))) ∧
    (∀ st : ℤ, (XHybrid.schema (xhPayloadS st)).isOk = true ↔ 0 ≤ st) := by
  refine ⟨?_, ?_, ?_⟩
  · intro d hd
    constructor
    · rw [xh_schema_payloadD]
      simp [xh_lenOk_iff, hd]
    · exact map_response_eq d XHybrid.sensor_map
        (fun e he => by have := xh_indices_lt e he; omega)
  · intro d hd
    constructor
    · rw [x3_schema_payloadDM]
      simp [x3_lenOk_iff, hd]
    · exact map_response_eq d X3.sensor_map
        (fun e he => by have := x3_indices_lt e he; omega)
  · intro st
    rw [xh_schema_payloadS]
    by_cases h : 0 ≤ st <;> simp [h, Except.isOk, Except.toBool]

/-- C10 witness: a Data array containing a negative and a huge value
validates for XHybrid, and Status -1 is rejected while Status 0 passes. -/
theorem C10_witness :
    XHybrid.schema (xhPayloadD (-5 :: (10 : ℚ) ^ 12 :: List.replicate 56 1))
      = .ok ⟨"m", "v", "t", "s", -5 :: (10 : ℚ) ^ 12 :: List.replicate 56 1, 2⟩ ∧
    (XHybrid.schema (xhPayloadS 0)).isOk = true ∧
    ¬(XHybrid.schema (xhPayloadS (-1))).isOk = true :=
  ⟨(C10_no_range_on_data.1 _ (by simp)).1,
   (C10_no_range_on_data.2.2 0).mpr (by omega),
   fun h => by simpa using (C10_no_range_on_data.2.2 (-1)).mp h⟩

/-- C2: for each variant, a payload that parses and validates yields a
response whose readings list has exactly the declared sensor names (in
declared order), each bound to the Data value at its declared index, with
`SN` mapped to `serial_number`, `version` (XHybrid) resp. `ver` (X3)
mapped to `version`, and `type` mapped to `type`. -/
theorem C2_response_shape :
    (∀ body j p, parseJson (pyRepair body) = some j → XHybrid.schema j = .ok p →
      XHybrid.make_request body = .ok
        { data := XHybrid.sensor_map.map (fun e => (e.1, p.Data.getD e.2.1 0)),
          serial_number := p.SN, version := p.version, type := p.type } ∧
      (XHybrid.sensor_map.map (fun e => (e.1, p.Data.getD e.2.1 0))).map Prod.fst
        = XHybrid.sensor_map.map Prod.fst ∧
      (∀ e ∈ XHybrid.sensor_map, e.2.1 < p.Data.length)) ∧
    (∀ body j p, parseJson body = some j → X3.schema j = .ok p →
      X3.make_request body = .ok
        { data := X3.sensor_map.map (fun e => (e.1, p.Data.getD e.2.1 0)),
          serial_number := p.SN, version := p.ver, type := p.type } ∧
      (X3.sensor_map.map (fun e => (e.1, p.Data.getD e.2.1 0))).map Prod.fst
        = X3.sensor_map.map Prod.fst ∧
      (∀ e ∈ X3.sensor_map, e.2.1 < p.Data.length)) := by
  constructor
  · intro body j p hp hs
    refine ⟨xh_make_request_ok body j p hp hs, ?_, ?_⟩
    · simp [List.map_map]
    · intro e he
      have := xh_indices_lt e he
      have := xh_schema_ok_length j p hs
      omega
  · intro body j p hp hs
    refine ⟨x3_make_request_ok body j p hp hs, ?_, ?_⟩
    · simp [List.map_map]
    · intro e he
      have := x3_indices_lt e he
      have := x3_schema_ok_length j p hs
      omega

/-- C2 witness: concrete fixture bodies for both variants go through the
whole pipeline and produce exactly the responses the claim describes. -/
theorem C2_witness :
    XHybrid.make_request xhSampleBody = .ok
      { data := XHybrid.sensor_map.map (fun e => (e.1, xhSampleP.Data.getD e.2.1 0)),
        serial_number := xhSampleP.SN, version := xhSampleP.version, type := xhSampleP.type } ∧
    X3.make_request x3SampleBody = .ok
      { data := X3.sensor_map.map (fun e => (e.1, x3SampleP.Data.getD e.2.1 0)),
        serial_number := x3SampleP.SN, version := x3SampleP.ver, type := x3SampleP.type } :=
  ⟨(C2_response_shape.1 xhSampleBody xhSampleJ xhSampleP (by with_unfolding_all rfl) rfl).1,
   (C2_response_shape.2 x3SampleBody x3SampleJ x3SampleP (by with_unfolding_all rfl) rfl).1⟩

/-- C5 (amended): the transport failure, the non-JSON body and the schema
violation are each reported as the unified `InverterError` carrying the
original cause, and — with one exception — these are the only outcomes
besides a successful response.  The exception: an X3 payload whose
`Information` value has no `len()` makes `vol.Length` raise a `TypeError`
that `get_data` does not catch.  XHybrid fetches always yield a response
or a unified error. -/
theorem C5_unified_errors :
    (∀ a : AdapterId, get_data a (.error ()) =
      .err ⟨"Could not connect to inverter endpoint", .clientError⟩) ∧
    (∀ body, parseJson (pyRepair body) = none →
      get_data .xhybrid (.ok body) =
        .err ⟨"Received non-JSON data from inverter endpoint", .valueError⟩) ∧
    (∀ body, parseJson body = none →
      get_data .x3 (.ok body) =
        .err ⟨"Received non-JSON data from inverter endpoint", .valueError⟩) ∧
    (∀ body j, parseJson (pyRepair body) = some j → XHybrid.schema j = .error .invalid →
      get_data .xhybrid (.ok body) =
        .err ⟨"Received malformed JSON from inverter", .volInvalid⟩) ∧
    (∀ body j, parseJson body = some j → X3.schema j = .error .invalid →
      get_data .x3 (.ok body) =
        .err ⟨"Received malformed JSON from inverter", .volInvalid⟩) ∧
    (∀ tr, (get_data .xhybrid tr).unified = true) ∧
    (∀ tr e, get_data .x3 tr = .uncaught e → e = .typeError) := by
  refine ⟨fun a => rfl, ?_, ?_, ?_, ?_, ?_, ?_⟩
  · intro body h
    simp [get_data, make_request, XHybrid.make_request, h]
  · intro body h
    simp [get_data, make_request, X3.make_request, h]
  · intro body j hp hs
    simp [get_data, make_request, XHybrid.make_request, hp, hs]
  · intro body j hp hs
    simp [get_data, make_request, X3.make_request, hp, hs]
  · intro tr
    cases tr with
    | error e => rfl
    | ok body =>
      cases hp : parseJson (pyRepair body) with
      | none => simp [get_data, make_request, XHybrid.make_request, hp, Outcome.unified]
      | some j =>
        cases hs : XHybrid.schema j with
        | error e =>
          cases e with
          | invalid =>
            simp [get_data, make_request, XHybrid.make_request, hp, hs, Outcome.unified]
          | typeErr => exact absurd hs (xh_schema_not_typeErr j)
        | ok p =>
          have hb : ∀ e ∈ XHybrid.sensor_map, e.2.1 < p.Data.length := by
            intro e he
            have := xh_indices_lt e he
            have := xh_schema_ok_length j p hs
            omega
          have hm := map_response_eq p.Data XHybrid.sensor_map hb
          simp [get_data, make_request, XHybrid.make_request, hp, hs, hm, Outcome.unified]
  · intro tr e he
    cases tr with
    | error u => simp [get_data] at he
    | ok body =>
      cases hp : parseJson body with
      | none => simp [get_data, make_request, X3.make_request, hp] at he
      | some j =>
        cases hs : X3.schema j with
        | error v =>
          cases v with
          | invalid => simp [get_data, make_request, X3.make_request, hp, hs] at he
          | typeErr =>
            simp [get_data, make_request, X3.make_request, hp, hs] at he
            exact he.symm
        | ok p =>
          have hb : ∀ x ∈ X3.sensor_map, x.2.1 < p.Data.length := by
            intro x hx
            have := x3_indices_lt x hx
            have := x3_schema_ok_length j p hs
            omega
          have hm := map_response_eq p.Data X3.sensor_map hb
          simp [get_data, make_request, X3.make_request, hp, hs, hm] at he

/-- C5 counterexample: on a JSON-valid X3 body with valid Data but a
numeric `Information`, `get_data` neither returns a response nor raises
the unified `InverterError` — the `TypeError` escapes uncaught, so the
three unified failure modes are not the only outcomes besides success. -/
theorem C5_counterexample :
    get_data .x3 (.ok x3BadInfoBody) = .uncaught .typeError ∧
    (get_data .x3 (.ok x3BadInfoBody)).unified = false := by
  exact ⟨by decide, by decide⟩

/-- C5 witness: the non-JSON branch at a concrete junk body. -/
theorem C5_witness :
    get_data .xhybrid (.ok "junk") =
      .err ⟨"Received non-JSON data from inverter endpoint", .valueError⟩ :=
  C5_unified_errors.2.1 "junk" (by with_unfolding_all rfl)

/-- C8: after the HTTP read, each variant's pipeline (repair, parse,
validate, map) is a pure function of the body text: equal bodies give
equal responses. -/
theorem C8_pipeline_deterministic :
    ∀ b1 b2 : String, b1 = b2 →
      XHybrid.make_request b1 = XHybrid.make_request b2 ∧
      X3.make_request b1 = X3.make_request b2 := by
  intro b1 b2 h
  rw [h]
  exact ⟨rfl, rfl⟩

/-- C8 witness: two invocations on the unchanged sample fixtures. -/
theorem C8_witness :
    XHybrid.make_request xhSampleBody = XHybrid.make_request xhSampleBody ∧
    X3.make_request x3SampleBody = X3.make_request x3SampleBody :=
  C8_pipeline_deterministic xhSampleBody xhSampleBody rfl |>.imp id
    (fun _ => (C8_pipeline_deterministic x3SampleBody x3SampleBody rfl).2)

/-- C9: the XHybrid comma repair is applied to the whole body text, not
only inside the Data array: a body whose SN string contains `,,` comes
back with `,0.0,` spliced into the parsed serial number, differing from
what the device sent. -/
theorem C9_repair_rewrites_strings :
    (XHybrid.make_request c9Body).toOption.map InverterResponse.serial_number
      = some "AB,0.0,CD" ∧
    "AB,0.0,CD" ≠ "AB,,CD" := by
  exact ⟨by with_unfolding_all rfl, by decide⟩

/-- C1 (amended): discovery tries XHybrid then X3 in registry order, one
probe each; the first success short-circuits and returns that adapter
(the bound instance — not the probe's Response, which `discover`
discards); a unified communication error is absorbed and the next
candidate is tried; and `DiscoveryError` is raised exactly when every
registry entry produced a communication error. -/
theorem C1_discovery_first_success :
    ∀ env : AdapterId → Transport,
      (∀ r, get_data .xhybrid (env .xhybrid) = .ok r → discover env = .found .xhybrid) ∧
      (∀ e r, get_data .xhybrid (env .xhybrid) = .err e →
        get_data .x3 (env .x3) = .ok r → discover env = .found .x3) ∧
      (discover env = .discoveryError ↔
        (∃ e1, get_data .xhybrid (env .xhybrid) = .err e1) ∧
        (∃ e2, get_data .x3 (env .x3) = .err e2)) := by
  intro env
  refine ⟨?_, ?_, ?_, ?_⟩
  · intro r hr
    simp [discover, discoverGo, REGISTRY, hr]
  · intro e r he hr
    simp [discover, discoverGo, REGISTRY, he, hr]
  · intro hd
    cases h1 : get_data .xhybrid (env .xhybrid) with
    | ok r => simp [discover, discoverGo, REGISTRY, h1] at hd
    | uncaught e => simp [discover, discoverGo, REGISTRY, h1] at hd
    | err e1 =>
      cases h2 : get_data .x3 (env .x3) with
      | ok r => simp [discover, discoverGo, REGISTRY, h1, h2] at hd
      | uncaught e => simp [discover, discoverGo, REGISTRY, h1, h2] at hd
      | err e2 => exact ⟨⟨e1, rfl⟩, ⟨e2, rfl⟩⟩
  · rintro ⟨⟨e1, h1⟩, ⟨e2, h2⟩⟩
    simp [discover, discoverGo, REGISTRY, h1, h2]

/-- C1 counterexample: two environments whose successful X3 probes return
different Responses give the same `discover` output (the adapter), while
the spec-worded discovery, which returns the Response, distinguishes
them — so `discover` does not return the succeeding adapter's Response. -/
theorem C1_counterexample :
    discover (envX3Only "1") = discover (envX3Only "2") ∧
    discover (envX3Only "1") = .found .x3 ∧
    discoverSpec (envX3Only "1") ≠ discoverSpec (envX3Only "2") := by
  refine ⟨by decide, by decide, by with_unfolding_all decide⟩

/-- C1 witness: in an environment where only X3 responds validly,
discovery fails one XHybrid probe, succeeds the X3 probe and returns the
X3 adapter. -/
theorem C1_witness : discover (envX3Only "1") = .found AdapterId.x3 :=
  (C1_discovery_first_success (envX3Only "1")).2.1
    ⟨"Received non-JSON data from inverter endpoint", Cause.valueError⟩
    (envX3OnlyResp 1) (by decide) (by with_unfolding_all rfl)

/- Lemmas about the comma-repair pass. -/

theorem repl_cons_ne (c : Char) (l : List Char) (h : ¬(c = ',')) :
    repl (c :: l) = c :: repl l := by
  rw [repl.eq_def]
  split
  · rename_i heq
    injection heq with h1 _
    exact absurd h1 h
  · rename_i heq
    cases heq
    rfl
  · rename_i heq
    exact absurd heq (by simp)

theorem repl_comma_one (l : List Char) (h : l.head? ≠ some ',') :
    repl (',' :: l) = ',' :: repl l := by
  rw [repl.eq_def]
  split
  · rename_i heq
    injection heq with _ h2
    subst h2
    simp at h
  · rename_i heq
    cases heq
    rfl
  · rename_i heq
    exact absurd heq (by simp)

theorem repl_cc (l : List Char) :
    repl (',' :: ',' :: l) = ',' :: '0' :: '.' :: '0' :: ',' :: repl l := rfl

theorem repl_append : ∀ (a X : List Char), noCC a = true →
    (a.getLast? = some ',' → X.head? ≠ some ',') →
    repl (a ++ X) = a ++ repl X
  | [], X, _, _ => by simp
  | [c], X, h1, h2 => by
    by_cases hc : c = ','
    · subst hc
      have := h2 rfl
      simpa using repl_comma_one X this
    · simpa using repl_cons_ne c X hc
  | c1 :: c2 :: rest, X, h1, h2 => by
    have h2' : (c2 :: rest).getLast? = some ',' → X.head? ≠ some ',' := by
      intro hl
      exact h2 (by rwa [List.getLast?_cons_cons])
    by_cases hc1 : c1 = ','
    · subst hc1
      have hc2 : ¬(c2 = ',') := by
        intro hc2
        subst hc2
        simp [noCC] at h1
      have hnocc : noCC (c2 :: rest) = true := by
        rw [noCC.eq_def] at h1
        split at h1
        · exact absurd h1 (by simp)
        · rename_i heq
          injection heq with _ heq2
          rw [heq2]
          exact h1
        · simp_all
      have hhead : (c2 :: rest ++ X).head? ≠ some ',' := by
        simp [hc2]
      calc repl (',' :: (c2 :: rest ++ X))
          = ',' :: repl (c2 :: rest ++ X) := repl_comma_one _ hhead
        _ = ',' :: (c2 :: rest ++ repl X) := by
            rw [repl_append (c2 :: rest) X hnocc h2']
    · have hnocc : noCC (c2 :: rest) = true := by
        rw [noCC.eq_def] at h1
        split at h1
        · exact absurd h1 (by simp)
        · rename_i heq
          injection heq with _ heq2
          rw [heq2]
          exact h1
        · simp_all
      calc repl (c1 :: (c2 :: rest ++ X))
          = c1 :: repl (c2 :: rest ++ X) := repl_cons_ne c1 _ hc1
        _ = c1 :: (c2 :: rest ++ repl X) := by
            rw [repl_append (c2 :: rest) X hnocc h2']

theorem repl_nocc (a : List Char) (h : noCC a = true) : repl a = a := by
  have h1 := repl_append a [] h (by simp)
  have h0 : repl ([] : List Char) = [] := rfl
  simpa [h0] using h1

/- Lemmas about number tokens. -/

theorem numChar_ne_comma (c : Char) (h : numChar c = true) : ¬(c = ',') := by
  intro hc
  subst hc
  exact absurd h (by decide)

theorem numChar_not_ws (c : Char) (h : numChar c = true) : isWs c = false := by
  by_contra hw
  rw [Bool.not_eq_false] at hw
  unfold isWs at hw
  simp only [Bool.or_eq_true, decide_eq_true_eq] at hw
  rcases hw with ((h1 | h1) | h1) | h1 <;> (subst h1; exact absurd h (by decide))

theorem numTok_ne_nil (t : List Char) (h : numTok t = true) : t ≠ [] := by
  intro he
  subst he
  exact absurd h (by decide)

theorem numTok_all (t : List Char) (h : numTok t = true) : t.all numChar = true := by
  unfold numTok at h
  rw [Bool.and_eq_true] at h
  exact h.2

theorem mem_of_getLast?_eq : ∀ (t : List Char) (c : Char), t.getLast? = some c → c ∈ t
  | [], c, h => by simp at h
  | [a], c, h => by
    simp at h
    simp [h]
  | a :: b :: rest, c, h => by
    rw [List.getLast?_cons_cons] at h
    exact List.mem_cons_of_mem a (mem_of_getLast?_eq (b :: rest) c h)

theorem getLast_num_ne_comma (t : List Char) (h : t.all numChar = true) :
    t.getLast? ≠ some ',' := by
  intro habs
  have hm := mem_of_getLast?_eq t ',' habs
  have hall := List.all_eq_true.mp h ',' hm
  exact absurd hall (by decide)

theorem noCC_of_all_num : ∀ (t : List Char), t.all numChar = true → noCC t = true := by
  intro t
  induction t with
  | nil => intro _; rfl
  | cons c rest ih =>
    intro h
    have h' := List.all_eq_true.mp h
    have hc : numChar c = true := h' c (List.mem_cons_self c rest)
    have hr : rest.all numChar = true :=
      List.all_eq_true.mpr (fun x hx => h' x (List.mem_cons_of_mem _ hx))
    rw [noCC.eq_def]
    split
    · rename_i heq
      injection heq with h1 _
      exact absurd h1 (numChar_ne_comma c hc)
    · rename_i heq
      injection heq with _ h2
      rw [← h2]
      exact ih hr
    · rfl

theorem head_num_ne_comma (t X : List Char) (h : t.all numChar = true)
    (hne : t ≠ []) : (t ++ X).head? ≠ some ',' := by
  cases t with
  | nil => exact absurd rfl hne
  | cons c rest =>
    have hc : numChar c = true := List.all_eq_true.mp h c (List.mem_cons_self c rest)
    simp
    exact numChar_ne_comma c hc

/- The two replacement passes over a rendered Data segment. -/

theorem replRun (m : ℕ) (X : List Char) (hm : m ≤ 3) (hX : X.head? ≠ some ',') :
    repl (List.replicate (m + 1) ',' ++ X) = gOut m ++ repl X := by
  interval_cases m
  · show repl (',' :: X) = _
    rw [repl_comma_one X hX]
    rfl
  · show repl (',' :: ',' :: X) = _
    rw [repl_cc]
    rfl
  · show repl (',' :: ',' :: ',' :: X) = _
    rw [repl_cc, repl_comma_one X hX]
    rfl
  · show repl (',' :: ',' :: ',' :: ',' :: X) = _
    rw [repl_cc, repl_cc]
    rfl

theorem repl_renderRest : ∀ (rest : List (ℕ × List Char)) (X : List Char),
    (∀ p ∈ rest, p.1 ≤ 3 ∧ numTok p.2 = true) → X.head? ≠ some ',' →
    repl (renderRest rest ++ X) = passOne rest ++ repl X := by
  intro rest
  induction rest with
  | nil =>
    intro X _ _
    simp [renderRest, passOne]
  | cons p rs ih =>
    obtain ⟨m, t⟩ := p
    intro X hp hX
    have hmt := hp (m, t) (List.mem_cons_self _ _)
    have htall := numTok_all t hmt.2
    have htne := numTok_ne_nil t hmt.2
    have hrs : ∀ q ∈ rs, q.1 ≤ 3 ∧ numTok q.2 = true :=
      fun q hq => hp q (List.mem_cons_of_mem _ hq)
    show repl (List.replicate (m + 1) ',' ++ t ++ renderRest rs ++ X)
        = (gOut m ++ t ++ passOne rs) ++ repl X
    simp only [List.append_assoc]
    rw [replRun m _ hmt.1 (head_num_ne_comma t _ htall htne)]
    rw [repl_append t _ (noCC_of_all_num t htall)
      (fun hl => absurd hl (getLast_num_ne_comma t htall))]
    rw [ih X hrs hX]

theorem replGOut (m : ℕ) (Y : List Char) (hm : m ≤ 3) (hY : Y.head? ≠ some ',') :
    repl (gOut m ++ Y) = ',' :: (zerosSeq m ++ repl Y) := by
  interval_cases m
  · show repl (',' :: Y) = _
    rw [repl_comma_one Y hY]
    rfl
  · show repl (',' :: '0' :: '.' :: '0' :: ',' :: Y) = _
    rw [repl_comma_one _ (by simp)]
    rw [repl_cons_ne '0' _ (by decide), repl_cons_ne '.' _ (by decide),
        repl_cons_ne '0' _ (by decide)]
    rw [repl_comma_one Y hY]
    rfl
  · show repl (',' :: '0' :: '.' :: '0' :: ',' :: ',' :: Y) = _
    rw [repl_comma_one _ (by simp)]
    rw [repl_cons_ne '0' _ (by decide), repl_cons_ne '.' _ (by decide),
        repl_cons_ne '0' _ (by decide)]
    rw [repl_cc]
    rfl
  · show repl (',' :: '0' :: '.' :: '0' :: ',' :: ',' :: '0' :: '.' :: '0' :: ',' :: Y) = _
    rw [repl_comma_one _ (by simp)]
    rw [repl_cons_ne '0' _ (by decide), repl_cons_ne '.' _ (by decide),
        repl_cons_ne '0' _ (by decide)]
    rw [repl_cc]
    rw [repl_cons_ne '0' _ (by decide), repl_cons_ne '.' _ (by decide),
        repl_cons_ne '0' _ (by decide)]
    rw [repl_comma_one Y hY]
    rfl

theorem repl_passOne : ∀ (rest : List (ℕ × List Char)) (X : List Char),
    (∀ p ∈ rest, p.1 ≤ 3 ∧ numTok p.2 = true) → X.head? ≠ some ',' →
    repl (passOne rest ++ X) = renderRestFilled rest ++ repl X := by
  intro rest
  induction rest with
  | nil =>
    intro X _ _
    simp [passOne, renderRestFilled]
  | cons p rs ih =>
    obtain ⟨m, t⟩ := p
    intro X hp hX
    have hmt := hp (m, t) (List.mem_cons_self _ _)
    have htall := numTok_all t hmt.2
    have htne := numTok_ne_nil t hmt.2
    have hrs : ∀ q ∈ rs, q.1 ≤ 3 ∧ numTok q.2 = true :=
      fun q hq => hp q (List.mem_cons_of_mem _ hq)
    show repl ((gOut m ++ t ++ passOne rs) ++ X)
        = (',' :: (zerosSeq m ++ t ++ renderRestFilled rs)) ++ repl X
    simp only [List.append_assoc]
    rw [replGOut m _ hmt.1 (head_num_ne_comma t _ htall htne)]
    rw [repl_append t _ (noCC_of_all_num t htall)
      (fun hl => absurd hl (getLast_num_ne_comma t htall))]
    rw [ih X hrs hX]
    simp [List.append_assoc]

/-- The double replacement turns the raw body into the filled body: every
run of up to three omissions becomes explicit `0.0` entries. -/
theorem pyRepair_xhRawBody (t0 : List Char) (rest : List (ℕ × List Char))
    (h0 : numTok t0 = true) (hr : ∀ p ∈ rest, p.1 ≤ 3 ∧ numTok p.2 = true) :
    pyRepair (xhRawBody t0 rest) = xhFilledBody t0 rest := by
  have h0all := numTok_all t0 h0
  have h0ne := numTok_ne_nil t0 h0
  show String.mk (repl (repl (xhPre ++ t0 ++ renderRest rest ++ xhPost)))
      = String.mk (xhPre ++ t0 ++ renderRestFilled rest ++ xhPost)
  congr 1
  have hpre_nocc : noCC xhPre = true := by decide
  have hpre_last : ∀ (Y : List Char), xhPre.getLast? = some ',' → Y.head? ≠ some ',' := by
    intro Y hl
    exact absurd hl (by decide)
  have hpost_head : xhPost.head? ≠ some ',' := by decide
  have step1 : repl (xhPre ++ t0 ++ renderRest rest ++ xhPost)
      = xhPre ++ t0 ++ passOne rest ++ xhPost := by
    simp only [List.append_assoc]
    rw [repl_append xhPre _ hpre_nocc (hpre_last _)]
    rw [repl_append t0 _ (noCC_of_all_num t0 h0all)
      (fun hl => absurd hl (getLast_num_ne_comma t0 h0all))]
    rw [repl_renderRest rest xhPost hr hpost_head]
    rw [repl_nocc xhPost (by decide)]
  rw [step1]
  simp only [List.append_assoc]
  rw [repl_append xhPre _ hpre_nocc (hpre_last _)]
  rw [repl_append t0 _ (noCC_of_all_num t0 h0all)
    (fun hl => absurd hl (getLast_num_ne_comma t0 h0all))]
  rw [repl_passOne rest xhPost hr hpost_head]
  rw [repl_nocc xhPost (by decide)]

/- Parsing lemmas: numbers. -/

theorem skipWs_cons_of (c : Char) (l : List Char) (h : isWs c = false) :
    skipWs (c :: l) = c :: l := by
  simp [skipWs, h]

theorem span_loop_tok : ∀ (t X acc : List Char), t.all numChar = true →
    (∀ c, X.head? = some c → numChar c = false) →
    List.span.loop numChar (t ++ X) acc = (acc.reverse ++ t, X) := by
  intro t
  induction t with
  | nil =>
    intro X acc _ hX
    cases X with
    | nil => simp [List.span.loop]
    | cons c X' =>
      have hc := hX c rfl
      simp [List.span.loop, hc]
  | cons c t' ih =>
    intro X acc h hX
    have h' := List.all_eq_true.mp h
    have hc : numChar c = true := h' c (List.mem_cons_self c t')
    have ht' : t'.all numChar = true :=
      List.all_eq_true.mpr (fun x hx => h' x (List.mem_cons_of_mem _ hx))
    show List.span.loop numChar (c :: (t' ++ X)) acc = _
    rw [List.span.loop]
    rw [hc]
    rw [ih X (c :: acc) ht' hX]
    simp

theorem span_tok (t X : List Char) (ht : t.all numChar = true)
    (hX : ∀ c, X.head? = some c → numChar c = false) :
    (t ++ X).span numChar = (t, X) := by
  unfold List.span
  rw [span_loop_tok t X [] ht hX]
  simp

theorem parseNum_tok (t X : List Char) (ht : numTok t = true)
    (hX : ∀ c, X.head? = some c → numChar c = false) :
    parseNum (t ++ X) = some (numVal t, X) := by
  unfold parseNum
  rw [span_tok t X (numTok_all t ht) hX]
  unfold numTok at ht
  rw [Bool.and_eq_true] at ht
  cases hq : parseNumFull t with
  | none => rw [hq] at ht; exact absurd ht.1 (by simp)
  | some q => simp [hq, numVal]

theorem parseValue_numTok (f : ℕ) (t X : List Char) (ht : numTok t = true)
    (hX : X.head? = some ',' ∨ X.head? = some ']') :
    parseValue (f + 1) (t ++ X) = some (.jnum (numVal t), X) := by
  have hX' : ∀ cc, X.head? = some cc → numChar cc = false := by
    intro cc hcc
    rcases hX with h | h <;>
      (rw [h] at hcc; injection hcc with h2; rw [← h2]; decide)
  cases t with
  | nil => exact absurd rfl (numTok_ne_nil [] ht)
  | cons c t' =>
    have hall := numTok_all _ ht
    have hc : numChar c = true := List.all_eq_true.mp hall c (List.mem_cons_self c t')
    have hskip : skipWs ((c :: t') ++ X) = c :: (t' ++ X) :=
      skipWs_cons_of c (t' ++ X) (numChar_not_ws c hc)
    simp only [parseValue, hskip]
    split
    · rename_i heq
      injection heq with h1 _
      subst h1
      exact absurd hc (by decide)
    · rename_i heq
      injection heq with h1 _
      subst h1
      exact absurd hc (by decide)
    · rename_i heq
      injection heq with h1 _
      subst h1
      exact absurd hc (by decide)
    · rw [show c :: (t' ++ X) = (c :: t') ++ X from rfl]
      rw [parseNum_tok (c :: t') X ht hX']

theorem parseElems_toks : ∀ (toks : List (List Char)) (f : ℕ) (X : List Char),
    toks ≠ [] → (∀ t ∈ toks, numTok t = true) →
    parseElems (f + toks.length + 1) (intercalToks toks ++ ']' :: X)
      = some (toks.map (fun t => JVal.jnum (numVal t)), X) := by
  intro toks
  induction toks with
  | nil => intro f X h _; exact absurd rfl h
  | cons t ts ih =>
    intro f X _ hall
    have ht : numTok t = true := hall t (List.mem_cons_self _ _)
    cases ts with
    | nil =>
      show parseElems (f + 1 + 1) (t ++ ']' :: X) = some ([JVal.jnum (numVal t)], X)
      rw [parseElems.eq_2]
      rw [parseValue_numTok f t (']' :: X) ht (Or.inr rfl)]
      show (match skipWs (']' :: X) with
        | ',' :: r2 =>
          match parseElems (f + 1) r2 with
          | some (vs, r3) => some (JVal.jnum (numVal t) :: vs, r3)
          | none => none
        | ']' :: r2 => some ([JVal.jnum (numVal t)], r2)
        | _ => none) = some ([JVal.jnum (numVal t)], X)
      rw [skipWs_cons_of ']' X (by decide)]
      rfl
    | cons t2 ts2 =>
      have hts : t2 :: ts2 ≠ [] := by simp
      have hall2 : ∀ x ∈ t2 :: ts2, numTok x = true :=
        fun x hx => hall x (List.mem_cons_of_mem _ hx)
      have ih' := ih f X hts hall2
      simp only [List.length_cons] at ih' ⊢
      simp only [List.map_cons]
      show parseElems (f + (ts2.length + 1 + 1) + 1)
          ((t ++ ',' :: intercalToks (t2 :: ts2)) ++ ']' :: X) = _
      rw [show f + (ts2.length + 1 + 1) + 1 = (f + (ts2.length + 1) + 1) + 1 by omega]
      rw [parseElems.eq_2]
      rw [List.append_assoc]
      rw [show (',' :: intercalToks (t2 :: ts2)) ++ ']' :: X
          = ',' :: (intercalToks (t2 :: ts2) ++ ']' :: X) from rfl]
      rw [parseValue_numTok (f + (ts2.length + 1)) t
        (',' :: (intercalToks (t2 :: ts2) ++ ']' :: X)) ht (Or.inl rfl)]
      show (match skipWs (',' :: (intercalToks (t2 :: ts2) ++ ']' :: X)) with
        | ',' :: r2 =>
          match parseElems (f + (ts2.length + 1) + 1) r2 with
          | some (vs, r3) => some (JVal.jnum (numVal t) :: vs, r3)
          | none => none
        | ']' :: r2 => some ([JVal.jnum (numVal t)], r2)
        | _ => none) = _
      rw [skipWs_cons_of ',' _ (by decide)]
      show (match parseElems (f + (ts2.length + 1) + 1) (intercalToks (t2 :: ts2) ++ ']' :: X) with
        | some (vs, r3) => some (JVal.jnum (numVal t) :: vs, r3)
        | none => none) = _
      rw [ih']
      rfl

/- Parsing lemmas: strings and object members. -/

theorem plainChar_facts (c : Char) (h : plainChar c = true) :
    ¬(c = '"') ∧ ¬(c = '\\') ∧ ¬(c.toNat < 32) := by
  unfold plainChar at h
  rw [Bool.not_eq_true', Bool.or_eq_false_iff, Bool.or_eq_false_iff] at h
  obtain ⟨⟨h1, h2⟩, h3⟩ := h
  refine ⟨?_, ?_, ?_⟩
  · intro hc
    rw [hc] at h1
    simp at h1
  · intro hc
    rw [hc] at h2
    simp at h2
  · intro hc
    rw [decide_eq_false_iff_not] at h3
    exact h3 hc

theorem strChars_plain : ∀ (cs R : List Char), cs.all plainChar = true →
    strChars (cs ++ '"' :: R) = some (cs, R) := by
  intro cs
  induction cs with
  | nil => intro R _; rfl
  | cons c cs' ih =>
    intro R h
    have h' := List.all_eq_true.mp h
    have hc := plainChar_facts c (h' c (List.mem_cons_self c cs'))
    have hcs : cs'.all plainChar = true :=
      List.all_eq_true.mpr (fun x hx => h' x (List.mem_cons_of_mem _ hx))
    rw [strChars.eq_def]
    split
    · rename_i heq
      exact absurd heq (by simp)
    · rename_i heq
      injection heq with h1 _
      exact absurd h1 hc.1
    · rename_i heq
      injection heq with h1 _
      exact absurd h1 hc.2.1
    · rename_i heq2
      injection heq2 with h1 h2
      subst h1
      rw [← h2]
      rw [if_neg (by exact_mod_cast hc.2.2)]
      show (match strChars (cs' ++ '"' :: R) with
        | none => none
        | some (s, r) => some (c :: s, r)) = some (c :: cs', R)
      rw [ih R hcs]

theorem parseValue_str (f : ℕ) (v : String) (R : List Char)
    (hv : v.data.all plainChar = true) :
    parseValue (f + 1) ('"' :: (v.data ++ '"' :: R)) = some (.jstr v, R) := by
  rw [parseValue.eq_2]
  show (match strChars (v.data ++ '"' :: R) with
    | some (cs, r) => some (JVal.jstr (String.mk cs), r)
    | none => none) = some (.jstr v, R)
  rw [strChars_plain v.data R hv]

theorem parseMembers_str (f : ℕ) (k v : String) (REST : List Char)
    (hk : k.data.all plainChar = true) (hv : v.data.all plainChar = true) :
    parseMembers (f + 1 + 1)
      ('"' :: (k.data ++ '"' :: ':' :: '"' :: (v.data ++ '"' :: ',' :: REST)))
      = (parseMembers (f + 1) REST).map (fun p => ((k, JVal.jstr v) :: p.1, p.2)) := by
  rw [parseMembers.eq_2]
  show (match strChars (k.data ++ '"' :: ':' :: '"' :: (v.data ++ '"' :: ',' :: REST)) with
    | none => none
    | some (kk, r1) =>
      match skipWs r1 with
      | ':' :: r2 =>
        match parseValue (f + 1) r2 with
        | none => none
        | some (vv, r3) =>
          match skipWs r3 with
          | ',' :: r4 =>
            match parseMembers (f + 1) r4 with
            | some (ms, r5) => some ((String.mk kk, vv) :: ms, r5)
            | none => none
          | '\x7d' :: r4 => some ([(String.mk kk, vv)], r4)
          | _ => none
      | _ => none) = _
  rw [strChars_plain k.data _ hk]
  show (match parseValue (f + 1) ('"' :: (v.data ++ '"' :: ',' :: REST)) with
    | none => none
    | some (vv, r3) =>
      match skipWs r3 with
      | ',' :: r4 =>
        match parseMembers (f + 1) r4 with
        | some (ms, r5) => some ((k, vv) :: ms, r5)
        | none => none
      | '\x7d' :: r4 => some ([(k, vv)], r4)
      | _ => none) = _
  rw [parseValue_str f v (',' :: REST) hv]
  show (match parseMembers (f + 1) REST with
    | some (ms, r5) => some ((k, JVal.jstr v) :: ms, r5)
    | none => none) = _
  cases hpm : parseMembers (f + 1) REST with
  | none => rfl
  | some pr =>
    obtain ⟨ms, r5⟩ := pr
    rfl

theorem intercal_head (t : List Char) (ts : List (List Char)) :
    ∃ Z, intercalToks (t :: ts) = t ++ Z := by
  cases ts with
  | nil => exact ⟨[], by simp [intercalToks]⟩
  | cons t2 ts2 => exact ⟨',' :: intercalToks (t2 :: ts2), rfl⟩

theorem parseValue_arrToks (f : ℕ) (toks : List (List Char)) (X : List Char)
    (hne : toks ≠ []) (hall : ∀ t ∈ toks, numTok t = true) :
    parseValue (f + toks.length + 1 + 1) ('[' :: (intercalToks toks ++ ']' :: X))
      = some (.jarr (toks.map (fun t => JVal.jnum (numVal t))), X) := by
  obtain ⟨t, ts, rfl⟩ : ∃ t ts, toks = t :: ts := by
    cases toks with
    | nil => exact absurd rfl hne
    | cons t ts => exact ⟨t, ts, rfl⟩
  have ht : numTok t = true := hall t (List.mem_cons_self _ _)
  obtain ⟨c, t', rfl⟩ : ∃ c t', t = c :: t' := by
    cases t with
    | nil => exact absurd rfl (numTok_ne_nil [] ht)
    | cons c t' => exact ⟨c, t', rfl⟩
  have hc : numChar c = true :=
    List.all_eq_true.mp (numTok_all _ ht) c (List.mem_cons_self _ _)
  obtain ⟨Z, hZ⟩ := intercal_head (c :: t') ts
  have hskip : skipWs (intercalToks ((c :: t') :: ts) ++ ']' :: X)
      = intercalToks ((c :: t') :: ts) ++ ']' :: X := by
    rw [hZ]
    show skipWs (c :: ((t' ++ Z) ++ ']' :: X)) = c :: ((t' ++ Z) ++ ']' :: X)
    exact skipWs_cons_of c _ (numChar_not_ws c hc)
  rw [parseValue.eq_2]
  show (match skipWs (intercalToks ((c :: t') :: ts) ++ ']' :: X) with
    | ']' :: r => some (JVal.jarr [], r)
    | s2 =>
      match parseElems (f + ((c :: t') :: ts).length + 1) s2 with
      | some (vs, r) => some (JVal.jarr vs, r)
      | none => none) = _
  rw [hskip]
  split
  · rename_i heq
    rw [hZ] at heq
    have : c = ']' := by
      have := congrArg List.head? heq
      simpa using this
    subst this
    exact absurd hc (by decide)
  · rw [parseElems_toks ((c :: t') :: ts) f X hne hall]

theorem parseMembers_data (f : ℕ) (toks : List (List Char))
    (hne : toks ≠ []) (hall : ∀ t ∈ toks, numTok t = true) :
    parseMembers (f + toks.length + 1 + 1 + 1)
      ('"' :: ("Data".data ++ '"' :: ':' :: '[' :: (intercalToks toks ++ ']' :: '\x7d' :: [])))
      = some ([("Data", JVal.jarr (toks.map (fun t => JVal.jnum (numVal t))))], []) := by
  rw [parseMembers.eq_2]
  show (match strChars ("Data".data ++ '"' :: ':' :: '[' ::
      (intercalToks toks ++ ']' :: '\x7d' :: [])) with
    | none => none
    | some (kk, r1) =>
      match skipWs r1 with
      | ':' :: r2 =>
        match parseValue (f + toks.length + 1 + 1) r2 with
        | none => none
        | some (vv, r3) =>
          match skipWs r3 with
          | ',' :: r4 =>
            match parseMembers (f + toks.length + 1 + 1) r4 with
            | some (ms, r5) => some ((String.mk kk, vv) :: ms, r5)
            | none => none
          | '\x7d' :: r4 => some ([(String.mk kk, vv)], r4)
          | _ => none
      | _ => none) = _
  rw [strChars_plain "Data".data _ (by decide)]
  show (match parseValue (f + toks.length + 1 + 1)
      ('[' :: (intercalToks toks ++ ']' :: '\x7d' :: [])) with
    | none => none
    | some (vv, r3) =>
      match skipWs r3 with
      | ',' :: r4 =>
        match parseMembers (f + toks.length + 1 + 1) r4 with
        | some (ms, r5) => some (("Data", vv) :: ms, r5)
        | none => none
      | '\x7d' :: r4 => some ([("Data", vv)], r4)
      | _ => none) = _
  rw [parseValue_arrToks f toks ('\x7d' :: []) hne hall]
  rfl

theorem parseValue_xhTop (f : ℕ) (toks : List (List Char))
    (hne : toks ≠ []) (hall : ∀ t ∈ toks, numTok t = true) :
    parseValue (f + toks.length + 1 + 1 + 1 + 1 + 1 + 1 + 1 + 1 + 1)
      ('\x7b' :: ('"' :: ("method".data ++ '"' :: ':' :: '"' :: ("m".data ++ '"' :: ',' :: ('"' :: ("version".data ++ '"' :: ':' :: '"' :: ("v".data ++ '"' :: ',' :: ('"' :: ("type".data ++ '"' :: ':' :: '"' :: ("t".data ++ '"' :: ',' :: ('"' :: ("SN".data ++ '"' :: ':' :: '"' :: ("s".data ++ '"' :: ',' :: ('"' :: ("Status".data ++ '"' :: ':' :: '"' :: ("1".data ++ '"' :: ',' :: ('"' :: ("Data".data ++ '"' :: ':' :: '[' :: (intercalToks toks ++ ']' :: '\x7d' :: [])))))))))))))))))))
      = some (.jobj [("method", .jstr "m"), ("version", .jstr "v"), ("type", .jstr "t"),
          ("SN", .jstr "s"), ("Status", .jstr "1"),
          ("Data", .jarr (toks.map (fun t => JVal.jnum (numVal t))))], []) := by
  rw [parseValue.eq_2]
  show (match parseMembers (f + toks.length + 1 + 1 + 1 + 1 + 1 + 1 + 1 + 1)
      ('"' :: ("method".data ++ '"' :: ':' :: '"' :: ("m".data ++ '"' :: ',' :: ('"' :: ("version".data ++ '"' :: ':' :: '"' :: ("v".data ++ '"' :: ',' :: ('"' :: ("type".data ++ '"' :: ':' :: '"' :: ("t".data ++ '"' :: ',' :: ('"' :: ("SN".data ++ '"' :: ':' :: '"' :: ("s".data ++ '"' :: ',' :: ('"' :: ("Status".data ++ '"' :: ':' :: '"' :: ("1".data ++ '"' :: ',' :: ('"' :: ("Data".data ++ '"' :: ':' :: '[' :: (intercalToks toks ++ ']' :: '\x7d' :: [])))))))))))))))))) with
    | some (ms, r) => some (JVal.jobj ms, r)
    | none => none) = _
  rw [parseMembers_str (f + toks.length + 1 + 1 + 1 + 1 + 1 + 1) "method" "m" _
    (by decide) (by decide)]
  rw [parseMembers_str (f + toks.length + 1 + 1 + 1 + 1 + 1) "version" "v" _
    (by decide) (by decide)]
  rw [parseMembers_str (f + toks.length + 1 + 1 + 1 + 1) "type" "t" _
    (by decide) (by decide)]
  rw [parseMembers_str (f + toks.length + 1 + 1 + 1) "SN" "s" _
    (by decide) (by decide)]
  rw [parseMembers_str (f + toks.length + 1 + 1) "Status" "1" _
    (by decide) (by decide)]
  rw [parseMembers_data f toks hne hall]
  rfl

/- Connecting the filled rendering with the token-list rendering. -/

theorem zerosSeq_length (m : ℕ) : (zerosSeq m).length = 4 * m := by
  induction m with
  | zero => rfl
  | succ m ih => simp [zerosSeq, ih]; omega

theorem flatRest_len_le : ∀ rest : List (ℕ × List Char),
    (flatToksRest rest).length ≤ (renderRestFilled rest).length := by
  intro rest
  induction rest with
  | nil => simp [flatToksRest, renderRestFilled]
  | cons p rs ih =>
    obtain ⟨m, t⟩ := p
    simp [flatToksRest, renderRestFilled, zerosSeq_length, List.length_append]
    omega

theorem intercal_cons (t : List Char) (l : List (List Char)) (h : l ≠ []) :
    intercalToks (t :: l) = t ++ ',' :: intercalToks l := by
  cases l with
  | nil => exact absurd rfl h
  | cons t2 ts => rfl

theorem intercal_zeros : ∀ (m : ℕ) (l : List (List Char)), l ≠ [] →
    intercalToks (List.replicate m ['0', '.', '0'] ++ l) = zerosSeq m ++ intercalToks l := by
  intro m
  induction m with
  | zero => intro l _; rfl
  | succ m ih =>
    intro l hl
    rw [List.replicate_succ]
    rw [show (['0', '.', '0'] :: List.replicate m ['0', '.', '0']) ++ l
        = ['0', '.', '0'] :: (List.replicate m ['0', '.', '0'] ++ l) from rfl]
    rw [intercal_cons _ _ (by simp [hl])]
    rw [ih l hl]
    rfl

theorem intercal_flat : ∀ (rest : List (ℕ × List Char)) (t0 : List Char),
    intercalToks (t0 :: flatToksRest rest) = t0 ++ renderRestFilled rest := by
  intro rest
  induction rest with
  | nil => intro t0; simp [flatToksRest, renderRestFilled, intercalToks]
  | cons p rs ih =>
    obtain ⟨m, t⟩ := p
    intro t0
    show intercalToks (t0 :: (List.replicate m ['0', '.', '0'] ++ t :: flatToksRest rs))
        = t0 ++ ',' :: (zerosSeq m ++ t ++ renderRestFilled rs)
    rw [intercal_cons _ _ (by simp)]
    rw [intercal_zeros m (t :: flatToksRest rs) (by simp)]
    rw [ih t]
    simp [List.append_assoc]

theorem numVal_zeroTok : numVal ['0', '.', '0'] = 0 := by
  with_unfolding_all rfl

theorem flat_map_numVal : ∀ rest : List (ℕ × List Char),
    (flatToksRest rest).map (fun t => JVal.jnum (numVal t))
      = (filledValsRest rest).map JVal.jnum := by
  intro rest
  induction rest with
  | nil => rfl
  | cons p rs ih =>
    obtain ⟨m, t⟩ := p
    simp only [flatToksRest, filledValsRest, List.map_append, List.map_cons,
      List.map_replicate, ih, numVal_zeroTok]

theorem flat_all_numTok (rest : List (ℕ × List Char))
    (hr : ∀ p ∈ rest, p.1 ≤ 3 ∧ numTok p.2 = true) :
    ∀ t ∈ flatToksRest rest, numTok t = true := by
  induction rest with
  | nil => intro t ht; simp [flatToksRest] at ht
  | cons p rs ih =>
    obtain ⟨m, tk⟩ := p
    intro t ht
    simp only [flatToksRest, List.mem_append, List.mem_cons] at ht
    rcases ht with hz | he | hr2
    · rw [List.eq_of_mem_replicate hz]
      decide
    · subst he
      exact (hr (m, t) (List.mem_cons_self _ _)).2
    · exact ih (fun q hq => hr q (List.mem_cons_of_mem _ hq)) t hr2

theorem parseJson_xhFilled (t0 : List Char) (rest : List (ℕ × List Char))
    (h0 : numTok t0 = true) (hr : ∀ p ∈ rest, p.1 ≤ 3 ∧ numTok p.2 = true) :
    parseJson (xhFilledBody t0 rest) = some (xhRawJVal t0 rest) := by
  have htoksne : (t0 :: flatToksRest rest) ≠ [] := by simp
  have htoksall : ∀ t ∈ t0 :: flatToksRest rest, numTok t = true := by
    intro t ht
    rcases List.mem_cons.mp ht with he | hm
    · subst he; exact h0
    · exact flat_all_numTok rest hr t hm
  have hpre : xhPre.length = 69 := by decide
  have hpost : xhPost.length = 2 := by decide
  have hfl := flatRest_len_le rest
  have hlen : (t0 :: flatToksRest rest).length + 9
      ≤ (xhPre ++ t0 ++ renderRestFilled rest ++ xhPost).length + 1 := by
    simp only [List.length_append, List.length_cons]
    omega
  have hfuel : (xhPre ++ t0 ++ renderRestFilled rest ++ xhPost).length + 1
      = ((xhPre ++ t0 ++ renderRestFilled rest ++ xhPost).length + 1
          - ((t0 :: flatToksRest rest).length + 9))
        + (t0 :: flatToksRest rest).length + 1 + 1 + 1 + 1 + 1 + 1 + 1 + 1 + 1 := by
    omega
  have htop := parseValue_xhTop
    ((xhPre ++ t0 ++ renderRestFilled rest ++ xhPost).length + 1
      - ((t0 :: flatToksRest rest).length + 9))
    (t0 :: flatToksRest rest) htoksne htoksall
  rw [intercal_flat rest t0] at htop
  show (match parseValue ((xhFilledBody t0 rest).length + 1) (xhFilledBody t0 rest).data with
    | some (v, r) => if skipWs r = [] then some v else none
    | none => none) = some (xhRawJVal t0 rest)
  rw [show (xhFilledBody t0 rest).length
      = (xhPre ++ t0 ++ renderRestFilled rest ++ xhPost).length from rfl]
  rw [hfuel]
  rw [show parseValue
      (((xhPre ++ t0 ++ renderRestFilled rest ++ xhPost).length + 1
          - ((t0 :: flatToksRest rest).length + 9))
        + (t0 :: flatToksRest rest).length + 1 + 1 + 1 + 1 + 1 + 1 + 1 + 1 + 1)
      ((xhFilledBody t0 rest).data)
      = some (.jobj [("method", .jstr "m"), ("version", .jstr "v"), ("type", .jstr "t"),
          ("SN", .jstr "s"), ("Status", .jstr "1"),
          ("Data", .jarr ((t0 :: flatToksRest rest).map (fun t => JVal.jnum (numVal t))))], [])
    from htop]
  show some (JVal.jobj [("method", .jstr "m"), ("version", .jstr "v"), ("type", .jstr "t"),
      ("SN", .jstr "s"), ("Status", .jstr "1"),
      ("Data", .jarr ((t0 :: flatToksRest rest).map (fun t => JVal.jnum (numVal t))))])
    = some (xhRawJVal t0 rest)
  unfold xhRawJVal
  rw [List.map_cons, List.map_cons, flat_map_numVal]

/-- C3: the XHybrid textual repair replaces every occurrence of two
consecutive comma separators with a comma-zero-comma sequence, applied
exactly twice in succession (`pyRepair`).  As a result, every raw payload
whose omitted values sit between separators in runs of at most three is
repaired to the payload with each omission written as an explicit `0.0`,
and JSON parsing then succeeds with every omitted value read as zero. -/
theorem C3_comma_repair :
    ∀ (t0 : List Char) (rest : List (ℕ × List Char)),
      numTok t0 = true →
      (∀ p ∈ rest, p.1 ≤ 3 ∧ numTok p.2 = true) →
      pyRepair (xhRawBody t0 rest) = xhFilledBody t0 rest ∧
      parseJson (pyRepair (xhRawBody t0 rest)) = some (xhRawJVal t0 rest) := by
  intro t0 rest h0 hr
  have h1 := pyRepair_xhRawBody t0 rest h0 hr
  refine ⟨h1, ?_⟩
  rw [h1]
  exact parseJson_xhFilled t0 rest h0 hr

/-- C3 witness: a Data segment `1.5,,,,2,,7,42` (a run of three omissions,
then one omission, then none) repairs to `1.5,0.0,0.0,0.0,2,0.0,7,42` and
parses with the omitted values read as zeros. -/
theorem C3_witness :
    pyRepair (xhRawBody ['1', '.', '5'] [(3, ['2']), (1, ['7']), (0, ['4', '2'])])
      = xhFilledBody ['1', '.', '5'] [(3, ['2']), (1, ['7']), (0, ['4', '2'])] ∧
    parseJson (pyRepair (xhRawBody ['1', '.', '5'] [(3, ['2']), (1, ['7']), (0, ['4', '2'])]))
      = some (xhRawJVal ['1', '.', '5'] [(3, ['2']), (1, ['7']), (0, ['4', '2'])]) :=
  C3_comma_repair ['1', '.', '5'] [(3, ['2']), (1, ['7']), (0, ['4', '2'])]
    (by decide) (by decide)
